import Mathlib

/-!
Shallow embedding of the ScoBro LogBook data-access layer
(`src-tauri/src/database.rs` and `src-tauri/src/commands.rs`).

The SQLite store is modelled as lists of rows, one list per table.  Every
TEXT timestamp column holds the `DateTime::to_rfc3339` rendering of a UTC
instant and is only compared against strings produced the same way, so
instants are modelled as naturals ordered as those renderings are.
`Uuid::new_v4` is modelled by a fresh-id counter carried in the store, and
`Utc::now()` by a `now : Nat` parameter on each operation.  `chrono`'s
RFC3339 parser is external library code and enters the embedding as a
function parameter of the one command that calls it.  The
`ON DELETE CASCADE` / `ON DELETE SET NULL` clauses declared on the tables
in `Database::init` are part of the schema's semantics (sqlx enables
SQLite foreign-key enforcement), so the embeddings of `delete_entry` and
`delete_entry_item` perform those cascades.
-/

/-- Row of the `entries` table. -/
structure Entry where
  id : String
  timestamp : Nat
  created_at : Nat
  updated_at : Nat
deriving DecidableEq, Repr

/-- Row of the `entry_items` table. -/
structure EntryItem where
  id : String
  entry_id : String
  item_type : String
  content : String
  project : Option String
  created_at : Nat
  updated_at : Nat
deriving DecidableEq, Repr

/-- Row of the `tags` table (`name` is declared UNIQUE). -/
structure Tag where
  id : String
  name : String
  description : Option String
  color : String
  category : Option String
  created_at : Nat
  updated_at : Nat
deriving DecidableEq, Repr

/-- Row of the `people` table (`name` is declared UNIQUE). -/
structure Person where
  id : String
  name : String
  created_at : Nat
deriving DecidableEq, Repr

/-- Row of the `jira_refs` table. -/
structure JiraRef where
  id : String
  entry_item_id : String
  jira_key : String
  created_at : Nat
deriving DecidableEq, Repr

/-- Row of the `item_tags` join table; the pair is its PRIMARY KEY. -/
structure ItemTag where
  entry_item_id : String
  tag_id : String
deriving DecidableEq, Repr

/-- Row of the `item_people` join table; the pair is its PRIMARY KEY. -/
structure ItemPerson where
  entry_item_id : String
  person_id : String
deriving DecidableEq, Repr

/-- Row of the `meeting_actions` table (`entry_item_id` is a nullable FK
declared `ON DELETE SET NULL`). -/
structure MeetingAction where
  id : String
  meeting_id : String
  entry_item_id : Option String
  title : String
  description : Option String
  assignee : Option String
  due_date : Option Nat
  status : String
  priority : String
  created_at : Nat
  updated_at : Nat
deriving DecidableEq, Repr

/-- The relational store: the tables the verified claims touch, plus the
fresh-id counter modelling `Uuid::new_v4`. -/
structure DB where
  entries : List Entry
  entry_items : List EntryItem
  tags : List Tag
  people : List Person
  jira_refs : List JiraRef
  item_tags : List ItemTag
  item_people : List ItemPerson
  meeting_actions : List MeetingAction
  nextId : Nat
deriving DecidableEq

/-- Fresh identifier produced from the counter (models `Uuid::new_v4`). -/
def freshId (n : Nat) : String :=
  "uuid-" ++ toString n

/-- The empty store produced by `Database::init`. -/
def DB.empty : DB :=
  { entries := [], entry_items := [], tags := [], people := [], jira_refs := [],
    item_tags := [], item_people := [], meeting_actions := [], nextId := 0 }

/-- `Database::create_entry`: INSERT INTO entries. -/
def DB.create_entry (db : DB) (now ts : Nat) : DB × Entry :=
  let e : Entry := { id := freshId db.nextId, timestamp := ts, created_at := now, updated_at := now }
  ({ db with entries := db.entries ++ [e], nextId := db.nextId + 1 }, e)

/-- `Database::create_entry_item`: INSERT INTO entry_items. -/
def DB.create_entry_item (db : DB) (now : Nat) (entry_id item_type content : String)
    (project : Option String) : DB × EntryItem :=
  let it : EntryItem := { id := freshId db.nextId, entry_id := entry_id, item_type := item_type,
                          content := content, project := project, created_at := now, updated_at := now }
  ({ db with entry_items := db.entry_items ++ [it], nextId := db.nextId + 1 }, it)

/-- `Database::get_or_create_tag`: SELECT by unique name first; if absent,
INSERT with default color and NULL description/category. -/
def DB.get_or_create_tag (db : DB) (now : Nat) (name : String) : DB × Tag :=
  match db.tags.find? (fun t => t.name == name) with
  | some t => (db, t)
  | none =>
    let t : Tag := { id := freshId db.nextId, name := name, description := none,
                     color := "#6c757d", category := none, created_at := now, updated_at := now }
    ({ db with tags := db.tags ++ [t], nextId := db.nextId + 1 }, t)

/-- `Database::get_or_create_person`: SELECT by unique name first; if
absent, INSERT the name. -/
def DB.get_or_create_person (db : DB) (now : Nat) (name : String) : DB × Person :=
  match db.people.find? (fun p => p.name == name) with
  | some p => (db, p)
  | none =>
    let p : Person := { id := freshId db.nextId, name := name, created_at := now }
    ({ db with people := db.people ++ [p], nextId := db.nextId + 1 }, p)

/-- `Database::create_jira_ref`: INSERT INTO jira_refs (no dedup). -/
def DB.create_jira_ref (db : DB) (now : Nat) (entry_item_id jira_key : String) : DB × JiraRef :=
  let j : JiraRef := { id := freshId db.nextId, entry_item_id := entry_item_id,
                       jira_key := jira_key, created_at := now }
  ({ db with jira_refs := db.jira_refs ++ [j], nextId := db.nextId + 1 }, j)

/-- `Database::link_item_tag`: INSERT OR IGNORE INTO item_tags — a no-op
when a row with the same primary-key pair already exists. -/
def DB.link_item_tag (db : DB) (entry_item_id tag_id : String) : DB :=
  let r : ItemTag := { entry_item_id := entry_item_id, tag_id := tag_id }
  if r ∈ db.item_tags then db
  else { db with item_tags := db.item_tags ++ [r] }

/-- `Database::link_item_person`: INSERT OR IGNORE INTO item_people. -/
def DB.link_item_person (db : DB) (entry_item_id person_id : String) : DB :=
  let r : ItemPerson := { entry_item_id := entry_item_id, person_id := person_id }
  if r ∈ db.item_people then db
  else { db with item_people := db.item_people ++ [r] }

/-- `Database::get_item_tags`: tags joined through item_tags for one item. -/
def DB.get_item_tags (db : DB) (entry_item_id : String) : List Tag :=
  (db.item_tags.filter (fun r => r.entry_item_id == entry_item_id)).filterMap
    (fun r => db.tags.find? (fun t => t.id == r.tag_id))

/-- `Database::get_item_people`: people joined through item_people for one item. -/
def DB.get_item_people (db : DB) (entry_item_id : String) : List Person :=
  (db.item_people.filter (fun r => r.entry_item_id == entry_item_id)).filterMap
    (fun r => db.people.find? (fun p => p.id == r.person_id))

/-- `Database::get_item_jira_refs`: SELECT FROM jira_refs WHERE entry_item_id = ?. -/
def DB.get_item_jira_refs (db : DB) (entry_item_id : String) : List JiraRef :=
  db.jira_refs.filter (fun j => j.entry_item_id == entry_item_id)

/-- An `EntryItem` together with its fanned-out metadata. -/
structure EntryItemWithMetadata where
  item : EntryItem
  tags : List Tag
  people : List Person
  jira_refs : List JiraRef
deriving DecidableEq, Repr

/-- An `Entry` together with its aggregated items. -/
structure EntryWithItems where
  entry : Entry
  items : List EntryItemWithMetadata
deriving DecidableEq, Repr

/-- `Database::get_entry_items_with_metadata`: SELECT FROM entry_items
WHERE entry_id = ? ORDER BY created_at, then the three per-item lookups. -/
def DB.get_entry_items_with_metadata (db : DB) (entry_id : String) : List EntryItemWithMetadata :=
  ((db.entry_items.filter (fun it => it.entry_id == entry_id)).mergeSort
      (fun a b => a.created_at ≤ b.created_at)).map
    (fun it => { item := it, tags := db.get_item_tags it.id,
                 people := db.get_item_people it.id, jira_refs := db.get_item_jira_refs it.id })

/-- `Database::get_all_entries_with_items`: SELECT FROM entries ORDER BY
timestamp DESC, then aggregate each entry's items. -/
def DB.get_all_entries_with_items (db : DB) : List EntryWithItems :=
  (db.entries.mergeSort (fun a b => b.timestamp ≤ a.timestamp)).map
    (fun e => { entry := e, items := db.get_entry_items_with_metadata e.id })

/-- `Database::get_entry_with_items`: resolve the owning entry via the
item's entry_id (fetch_one fails when either row is missing), then
aggregate that entry's items. -/
def DB.get_entry_with_items (db : DB) (entry_item_id : String) : Except String EntryWithItems :=
  match db.entry_items.find? (fun it => it.id == entry_item_id) with
  | none => .error "RowNotFound"
  | some it =>
    match db.entries.find? (fun e => e.id == it.entry_id) with
    | none => .error "RowNotFound"
    | some e => .ok { entry := e, items := db.get_entry_items_with_metadata it.entry_id }

/-- `Database::update_entry_item_content`: UPDATE entry_items SET content,
updated_at WHERE id = ?. -/
def DB.update_entry_item_content (db : DB) (now : Nat) (entry_item_id content : String) : DB :=
  { db with entry_items := db.entry_items.map (fun it =>
      if it.id == entry_item_id then { it with content := content, updated_at := now } else it) }

/-- `Database::update_entry_item_project`: UPDATE entry_items SET project,
updated_at WHERE id = ?. -/
def DB.update_entry_item_project (db : DB) (now : Nat) (entry_item_id : String)
    (project : Option String) : DB :=
  { db with entry_items := db.entry_items.map (fun it =>
      if it.id == entry_item_id then { it with project := project, updated_at := now } else it) }

/-- `Database::remove_item_tags`: DELETE FROM item_tags WHERE entry_item_id = ?. -/
def DB.remove_item_tags (db : DB) (entry_item_id : String) : DB :=
  { db with item_tags := db.item_tags.filter (fun r => !(r.entry_item_id == entry_item_id)) }

/-- `Database::remove_item_people`: DELETE FROM item_people WHERE entry_item_id = ?. -/
def DB.remove_item_people (db : DB) (entry_item_id : String) : DB :=
  { db with item_people := db.item_people.filter (fun r => !(r.entry_item_id == entry_item_id)) }

/-- `Database::remove_item_jira_refs`: DELETE FROM jira_refs WHERE entry_item_id = ?. -/
def DB.remove_item_jira_refs (db : DB) (entry_item_id : String) : DB :=
  { db with jira_refs := db.jira_refs.filter (fun j => !(j.entry_item_id == entry_item_id)) }

/-- `Database::delete_entry_item`: DELETE FROM entry_items WHERE id = ?,
with the schema's cascades: deleting an entry_items row deletes its
jira_refs, item_tags and item_people rows (ON DELETE CASCADE) and nulls
meeting_actions.entry_item_id pointing at it (ON DELETE SET NULL).
Cascades fire only for rows actually deleted. -/
def DB.delete_entry_item (db : DB) (entry_item_id : String) : DB :=
  let removedIds := (db.entry_items.filter (fun it => it.id == entry_item_id)).map (·.id)
  { db with
    entry_items := db.entry_items.filter (fun it => !(it.id == entry_item_id)),
    jira_refs := db.jira_refs.filter (fun j => !(removedIds.contains j.entry_item_id)),
    item_tags := db.item_tags.filter (fun r => !(removedIds.contains r.entry_item_id)),
    item_people := db.item_people.filter (fun r => !(removedIds.contains r.entry_item_id)),
    meeting_actions := db.meeting_actions.map (fun a =>
      if a.entry_item_id.any (fun i => removedIds.contains i) then
        { a with entry_item_id := none }
      else a) }

/-- `Database::delete_entry`: DELETE FROM entries WHERE id = ?, with the
schema's cascades: deleting an entries row deletes its entry_items
(ON DELETE CASCADE), which transitively deletes their jira_refs,
item_tags and item_people rows and nulls meeting_actions.entry_item_id
pointing at them. -/
def DB.delete_entry (db : DB) (entry_id : String) : DB :=
  let removedEntryIds := (db.entries.filter (fun e => e.id == entry_id)).map (·.id)
  let removedItemIds :=
    (db.entry_items.filter (fun it => removedEntryIds.contains it.entry_id)).map (·.id)
  { db with
    entries := db.entries.filter (fun e => !(e.id == entry_id)),
    entry_items := db.entry_items.filter (fun it => !(removedEntryIds.contains it.entry_id)),
    jira_refs := db.jira_refs.filter (fun j => !(removedItemIds.contains j.entry_item_id)),
    item_tags := db.item_tags.filter (fun r => !(removedItemIds.contains r.entry_item_id)),
    item_people := db.item_people.filter (fun r => !(removedItemIds.contains r.entry_item_id)),
    meeting_actions := db.meeting_actions.map (fun a =>
      if a.entry_item_id.any (fun i => removedItemIds.contains i) then
        { a with entry_item_id := none }
      else a) }

/-- `CreateItemRequest` from `commands.rs`. -/
structure CreateItemRequest where
  item_type : String
  content : String
  project : Option String
  tags : List String
  jira : List String
  people : List String
deriving DecidableEq, Repr

/-- `CreateEntryRequest` from `commands.rs`; the timestamp is the raw
request string, parsed inside the command. -/
structure CreateEntryRequest where
  timestamp : String
  items : List CreateItemRequest
deriving DecidableEq, Repr

/-- `ItemResponse` from `commands.rs`. -/
structure ItemResponse where
  id : String
  item_type : String
  content : String
  project : Option String
  tags : List String
  jira : List String
  people : List String
deriving DecidableEq, Repr

/-- `EntryResponse` from `commands.rs`; its timestamp field is the
`to_rfc3339` rendering of the entry's instant, kept here as the instant. -/
structure EntryResponse where
  id : String
  timestamp : Nat
  items : List ItemResponse
deriving DecidableEq, Repr

/-- The per-tag-name loop of `create_entry` / `update_entry_item`:
`get_or_create_tag` then `link_item_tag`, over the supplied names in order. -/
def linkTagNames (now : Nat) (item_id : String) : DB → List String → DB
  | db, [] => db
  | db, n :: rest =>
    let r := db.get_or_create_tag now n
    linkTagNames now item_id (r.1.link_item_tag item_id r.2.id) rest

/-- The per-person-name loop of `create_entry` / `update_entry_item`:
`get_or_create_person` then `link_item_person`. -/
def linkPersonNames (now : Nat) (item_id : String) : DB → List String → DB
  | db, [] => db
  | db, n :: rest =>
    let r := db.get_or_create_person now n
    linkPersonNames now item_id (r.1.link_item_person item_id r.2.id) rest

/-- The per-jira-key loop of `create_entry` / `update_entry_item`:
`create_jira_ref` for each key. -/
def addJiraKeys (now : Nat) (item_id : String) : DB → List String → DB
  | db, [] => db
  | db, k :: rest => addJiraKeys now item_id (db.create_jira_ref now item_id k).1 rest

/-- One iteration of `create_entry`'s item loop: create the item, link its
tags and people, add its jira refs, and build the `ItemResponse` echoing
the request's tag/jira/people lists. -/
def processItem (db : DB) (now : Nat) (entry_id : String) (req : CreateItemRequest) :
    DB × ItemResponse :=
  let r := db.create_entry_item now entry_id req.item_type req.content req.project
  let db1 := linkTagNames now r.2.id r.1 req.tags
  let db2 := linkPersonNames now r.2.id db1 req.people
  let db3 := addJiraKeys now r.2.id db2 req.jira
  (db3, { id := r.2.id, item_type := r.2.item_type, content := r.2.content,
          project := r.2.project, tags := req.tags, jira := req.jira, people := req.people })

/-- `create_entry`'s loop over the request's items, threading the store and
accumulating responses in order. -/
def processItems (now : Nat) (entry_id : String) : DB → List CreateItemRequest →
    DB × List ItemResponse
  | db, [] => (db, [])
  | db, r :: rest =>
    let step := processItem db now entry_id r
    let next := processItems now entry_id step.1 rest
    (next.1, step.2 :: next.2)

/-- The `create_entry` command: parse the timestamp first (failing the whole
command with no write when it is invalid), then create the entry and
process each requested item.  `parse` stands for
`DateTime::parse_from_rfc3339`, external library code.  The post-command
store is returned alongside the result, matching the shared mutable
state of the Rust command. -/
def create_entry_cmd (parse : String → Option Nat) (db : DB) (now : Nat)
    (req : CreateEntryRequest) : DB × Except String EntryResponse :=
  match parse req.timestamp with
  | none => (db, .error "Invalid timestamp")
  | some ts =>
    let r := db.create_entry now ts
    let next := processItems now r.2.id r.1 req.items
    (next.1, .ok { id := r.2.id, timestamp := r.2.timestamp, items := next.2 })

/-- `UpdateEntryItemRequest` from `commands.rs`: every field optional;
absent fields leave the corresponding state untouched. -/
structure UpdateEntryItemRequest where
  content : Option String
  project : Option String
  tags : Option (List String)
  jira : Option (List String)
  people : Option (List String)
deriving DecidableEq, Repr

/-- The five mutation phases of the `update_entry_item` command: content
update if supplied, project update if supplied (always passed as `Some`),
tag replacement (remove all then relink) if supplied, likewise people
and jira. -/
def updateStages (db : DB) (now : Nat) (entry_item_id : String)
    (updates : UpdateEntryItemRequest) : DB :=
  let db1 := match updates.content with
    | some c => db.update_entry_item_content now entry_item_id c
    | none => db
  let db2 := match updates.project with
    | some p => db1.update_entry_item_project now entry_item_id (some p)
    | none => db1
  let db3 := match updates.tags with
    | some ts => linkTagNames now entry_item_id (db2.remove_item_tags entry_item_id) ts
    | none => db2
  let db4 := match updates.people with
    | some ps => linkPersonNames now entry_item_id (db3.remove_item_people entry_item_id) ps
    | none => db3
  match updates.jira with
  | some js => addJiraKeys now entry_item_id (db4.remove_item_jira_refs entry_item_id) js
  | none => db4

/-- The `update_entry_item` command: the five mutation phases, then the
re-read of the owning entry, answering with its first item.  The
post-command store is returned alongside the result. -/
def update_entry_item_cmd (db : DB) (now : Nat) (entry_item_id : String)
    (updates : UpdateEntryItemRequest) : DB × Except String ItemResponse :=
  let db5 := updateStages db now entry_item_id updates
  match db5.get_entry_with_items entry_item_id with
  | .error e => (db5, .error e)
  | .ok ew =>
    match ew.items.head? with
    | some m =>
      (db5, .ok { id := m.item.id, item_type := m.item.item_type, content := m.item.content,
                  project := m.item.project, tags := m.tags.map (·.name),
                  jira := m.jira_refs.map (·.jira_key), people := m.people.map (·.name) })
    | none => (db5, .error "Entry item not found")

/-- The `delete_entry_item` command: a direct pass-through to the
repository delete. -/
def delete_entry_item_cmd (db : DB) (entry_item_id : String) : DB :=
  db.delete_entry_item entry_item_id

/-- The `delete_entry` command: a direct pass-through to the repository
delete. -/
def delete_entry_cmd (db : DB) (entry_id : String) : DB :=
  db.delete_entry entry_id

/-- `content.replace("\"", "\"\"")` — double every double-quote. -/
def escQuotes : List Char → List Char
  | [] => []
  | c :: rest => if c = '"' then '"' :: '"' :: escQuotes rest else c :: escQuotes rest

/-- CSV escaping of a content string, as the export performs it. -/
def csvEscape (s : String) : String :=
  ⟨escQuotes s.data⟩

/-- Two-digit zero-padded rendering of a field below 100
(chrono's `%m`/`%d`/`%H`/`%M`/`%S`). -/
def pad2 (n : Nat) : String :=
  if n < 10 then "0" ++ toString n else toString n

/-- Civil date (year, month, day) of a day count since 1970-01-01,
proleptic Gregorian — the calendar arithmetic behind chrono's `%Y-%m-%d`. -/
def civilFromDays (days : Nat) : Nat × Nat × Nat :=
  let z := days + 719468
  let era := z / 146097
  let doe := z % 146097
  let yoe := (doe - doe / 1460 + doe / 36524 - doe / 146096) / 365
  let y := yoe + era * 400
  let doy := doe - (365 * yoe + yoe / 4 - yoe / 100)
  let mp := (5 * doy + 2) / 153
  let d := doy - (153 * mp + 2) / 5 + 1
  let m := if mp < 10 then mp + 3 else mp - 9
  (if m ≤ 2 then y + 1 else y, m, d)

/-- `timestamp.format("%Y-%m-%d")` on an instant counted in seconds. -/
def fmtDate (ts : Nat) : String :=
  let c := civilFromDays (ts / 86400)
  toString c.1 ++ "-" ++ pad2 c.2.1 ++ "-" ++ pad2 c.2.2

/-- `timestamp.format("%H:%M:%S")` on an instant counted in seconds. -/
def fmtTime (ts : Nat) : String :=
  pad2 (ts % 86400 / 3600) ++ ":" ++ pad2 (ts % 3600 / 60) ++ ":" ++ pad2 (ts % 60)

/-- One CSV data row of `export_entries_csv`: the `format!` line of the
source — date, time and type raw, then quoted content with doubled
quotes, quoted project defaulting to empty, and the quoted
`;`-joined tag/jira/people lists. -/
def csvItemRow (date time : String) (m : EntryItemWithMetadata) : String :=
  date ++ "," ++ time ++ "," ++ m.item.item_type ++ ",\"" ++ csvEscape m.item.content ++
    "\",\"" ++ m.item.project.getD "" ++
    "\",\"" ++ String.intercalate ";" (m.tags.map (·.name)) ++
    "\",\"" ++ String.intercalate ";" (m.jira_refs.map (·.jira_key)) ++
    "\",\"" ++ String.intercalate ";" (m.people.map (·.name)) ++ "\"\n"

/-- The CSV header row written first by `export_entries_csv`. -/
def csvHeader : String :=
  "Date,Time,Type,Content,Project,Tags,Jira,People\n"

/-- The `export_entries_csv` command: the header row, then one data row per
item of each aggregated entry, accumulated in order. -/
def export_entries_csv (db : DB) : String :=
  db.get_all_entries_with_items.foldl
    (fun acc ew =>
      let date := fmtDate ew.entry.timestamp
      let time := fmtTime ew.entry.timestamp
      ew.items.foldl (fun acc2 m => acc2 ++ csvItemRow date time m) acc)
    csvHeader

/-! ## Supporting lemmas -/

/-- When the lookup by name succeeds, `get_or_create_tag` returns the found
row and leaves the store untouched. -/
theorem get_or_create_tag_found {db : DB} (now : Nat) {name : String} {t : Tag}
    (h : db.tags.find? (fun x => x.name == name) = some t) :
    db.get_or_create_tag now name = (db, t) := by
  unfold DB.get_or_create_tag
  rw [h]

/-- When the lookup by name fails, `get_or_create_tag` appends a fresh row
with default color and empty optional fields. -/
theorem get_or_create_tag_not_found {db : DB} (now : Nat) {name : String}
    (h : db.tags.find? (fun x => x.name == name) = none) :
    db.get_or_create_tag now name =
      ({ db with
          tags := db.tags ++ [⟨freshId db.nextId, name, none, "#6c757d", none, now, now⟩],
          nextId := db.nextId + 1 },
        ⟨freshId db.nextId, name, none, "#6c757d", none, now, now⟩) := by
  unfold DB.get_or_create_tag
  rw [h]

/-- When the lookup by name succeeds, `get_or_create_person` returns the
found row and leaves the store untouched. -/
theorem get_or_create_person_found {db : DB} (now : Nat) {name : String} {p : Person}
    (h : db.people.find? (fun x => x.name == name) = some p) :
    db.get_or_create_person now name = (db, p) := by
  unfold DB.get_or_create_person
  rw [h]

/-- When the lookup by name fails, `get_or_create_person` appends a fresh row. -/
theorem get_or_create_person_not_found {db : DB} (now : Nat) {name : String}
    (h : db.people.find? (fun x => x.name == name) = none) :
    db.get_or_create_person now name =
      ({ db with
          people := db.people ++ [⟨freshId db.nextId, name, now⟩],
          nextId := db.nextId + 1 },
        ⟨freshId db.nextId, name, now⟩) := by
  unfold DB.get_or_create_person
  rw [h]

/-- A list whose `f`-images are nodup has exactly one element attaining an
image `b` held by a member. -/
theorem countP_eq_one_of_nodup_map {α β : Type} [DecidableEq β] (f : α → β) (l : List α)
    (b : β) (hn : (l.map f).Nodup) (a : α) (ha : a ∈ l) (hb : f a = b) :
    l.countP (fun x => f x == b) = 1 := by
  have h1 : l.countP (fun x => f x == b) = (l.map f).countP (fun y => y == b) := by
    rw [List.countP_map]
    rfl
  have h2 : (l.map f).count b = 1 :=
    List.count_eq_one_of_mem hn (hb ▸ List.mem_map_of_mem f ha)
  rw [h1]
  simpa [List.count] using h2

/-! ## Claims -/

/-- **C1**: for every valid name, calling `get_or_create_tag`
(resp. `get_or_create_person`) twice with the same name returns the same
id both times and leaves exactly one tag (resp. person) row with that
name in the store; the first call inserts a row with default color and
empty optional fields when the name is absent, and the second call
returns the existing row without touching the store. -/
theorem claim1_get_or_create_twice (db : DB) (n1 n2 : Nat) (name : String)
    (htag : (db.tags.map Tag.name).Nodup)
    (hper : (db.people.map Person.name).Nodup) :
    (((db.get_or_create_tag n1 name).1.get_or_create_tag n2 name).2.id
        = (db.get_or_create_tag n1 name).2.id
      ∧ ((db.get_or_create_tag n1 name).1.get_or_create_tag n2 name).1
        = (db.get_or_create_tag n1 name).1
      ∧ ((db.get_or_create_tag n1 name).1.get_or_create_tag n2 name).1.tags.countP
          (fun t => t.name == name) = 1
      ∧ (db.tags.find? (fun t => t.name == name) = none →
          (db.get_or_create_tag n1 name).2.description = none
          ∧ (db.get_or_create_tag n1 name).2.color = "#6c757d"
          ∧ (db.get_or_create_tag n1 name).2.category = none
          ∧ (db.get_or_create_tag n1 name).1.tags
            = db.tags ++ [(db.get_or_create_tag n1 name).2])
      ∧ (∀ t0, db.tags.find? (fun t => t.name == name) = some t0 →
          db.get_or_create_tag n1 name = (db, t0)))
    ∧ (((db.get_or_create_person n1 name).1.get_or_create_person n2 name).2.id
        = (db.get_or_create_person n1 name).2.id
      ∧ ((db.get_or_create_person n1 name).1.get_or_create_person n2 name).1
        = (db.get_or_create_person n1 name).1
      ∧ ((db.get_or_create_person n1 name).1.get_or_create_person n2 name).1.people.countP
          (fun p => p.name == name) = 1
      ∧ (db.people.find? (fun p => p.name == name) = none →
          (db.get_or_create_person n1 name).1.people
            = db.people ++ [(db.get_or_create_person n1 name).2])
      ∧ (∀ p0, db.people.find? (fun p => p.name == name) = some p0 →
          db.get_or_create_person n1 name = (db, p0))) := by
  constructor
  · rcases hf : db.tags.find? (fun x => x.name == name) with _ | t0
    · have h1 := get_or_create_tag_not_found n1 hf
      have hf2 : (db.get_or_create_tag n1 name).1.tags.find? (fun x => x.name == name)
          = some (db.get_or_create_tag n1 name).2 := by
        rw [h1]
        dsimp only
        rw [List.find?_append, hf]
        simp
      have h2 := get_or_create_tag_found n2 hf2
      refine ⟨by rw [h2], by rw [h2], ?_, ?_, ?_⟩
      · rw [h2]
        rw [show (db.get_or_create_tag n1 name).1.tags
              = db.tags ++ [(db.get_or_create_tag n1 name).2] by rw [h1]]
        rw [List.countP_append]
        have hz : db.tags.countP (fun t => t.name == name) = 0 :=
          List.countP_eq_zero.mpr (List.find?_eq_none.mp hf)
        rw [hz, h1]
        simp
      · intro _
        rw [h1]
        simp
      · intro t0 ht0
        rw [hf] at ht0
        cases ht0
    · have h1 := get_or_create_tag_found n1 hf
      have h2 := get_or_create_tag_found n2 hf
      have hbt := List.find?_some hf
      have hname : t0.name = name := beq_iff_eq.mp hbt
      refine ⟨by rw [h1, h2], by rw [h1, h2], ?_, ?_, ?_⟩
      · rw [h1, h2]
        exact countP_eq_one_of_nodup_map Tag.name db.tags name htag t0
          (List.mem_of_find?_eq_some hf) hname
      · intro hnone
        rw [hf] at hnone
        cases hnone
      · intro t1 ht1
        rw [hf] at ht1
        cases ht1
        exact h1
  · rcases hf : db.people.find? (fun x => x.name == name) with _ | p0
    · have h1 := get_or_create_person_not_found n1 hf
      have hf2 : (db.get_or_create_person n1 name).1.people.find? (fun x => x.name == name)
          = some (db.get_or_create_person n1 name).2 := by
        rw [h1]
        dsimp only
        rw [List.find?_append, hf]
        simp
      have h2 := get_or_create_person_found n2 hf2
      refine ⟨by rw [h2], by rw [h2], ?_, ?_, ?_⟩
      · rw [h2]
        rw [show (db.get_or_create_person n1 name).1.people
              = db.people ++ [(db.get_or_create_person n1 name).2] by rw [h1]]
        rw [List.countP_append]
        have hz : db.people.countP (fun p => p.name == name) = 0 :=
          List.countP_eq_zero.mpr (List.find?_eq_none.mp hf)
        rw [hz, h1]
        simp
      · intro _
        rw [h1]
      · intro p0 hp0
        rw [hf] at hp0
        cases hp0
    · have h1 := get_or_create_person_found n1 hf
      have h2 := get_or_create_person_found n2 hf
      have hbp := List.find?_some hf
      have hname : p0.name = name := beq_iff_eq.mp hbp
      refine ⟨by rw [h1, h2], by rw [h1, h2], ?_, ?_, ?_⟩
      · rw [h1, h2]
        exact countP_eq_one_of_nodup_map Person.name db.people name hper p0
          (List.mem_of_find?_eq_some hf) hname
      · intro hnone
        rw [hf] at hnone
        cases hnone
      · intro p1 hp1
        rw [hf] at hp1
        cases hp1
        exact h1

/-- Witness for C1 at a concrete store: the empty store satisfies both
nodup hypotheses, and the double call returns one id and one row. -/
theorem claim1_get_or_create_twice_witness :
    ((DB.empty.tags.map Tag.name).Nodup ∧ (DB.empty.people.map Person.name).Nodup)
    ∧ ((DB.empty.get_or_create_tag 0 "team-a").1.get_or_create_tag 1 "team-a").2.id
        = (DB.empty.get_or_create_tag 0 "team-a").2.id
    ∧ ((DB.empty.get_or_create_tag 0 "team-a").1.get_or_create_tag 1 "team-a").1.tags.countP
        (fun t => t.name == "team-a") = 1
    ∧ ((DB.empty.get_or_create_person 0 "alice").1.get_or_create_person 1 "alice").2.id
        = (DB.empty.get_or_create_person 0 "alice").2.id
    ∧ ((DB.empty.get_or_create_person 0 "alice").1.get_or_create_person 1 "alice").1.people.countP
        (fun p => p.name == "alice") = 1 :=
  ⟨⟨by decide, by decide⟩,
   (claim1_get_or_create_twice DB.empty 0 1 "team-a" (by decide) (by decide)).1.1,
   (claim1_get_or_create_twice DB.empty 0 1 "team-a" (by decide) (by decide)).1.2.2.1,
   (claim1_get_or_create_twice DB.empty 0 1 "alice" (by decide) (by decide)).2.1,
   (claim1_get_or_create_twice DB.empty 0 1 "alice" (by decide) (by decide)).2.2.2.1⟩

/-- Linking a pair already present in `item_tags` is a no-op. -/
theorem link_item_tag_of_mem {db : DB} {iid tid : String}
    (h : (⟨iid, tid⟩ : ItemTag) ∈ db.item_tags) :
    db.link_item_tag iid tid = db := by
  unfold DB.link_item_tag
  simp [h]

/-- Linking an absent pair appends it to `item_tags`. -/
theorem link_item_tag_of_not_mem {db : DB} {iid tid : String}
    (h : (⟨iid, tid⟩ : ItemTag) ∉ db.item_tags) :
    db.link_item_tag iid tid = { db with item_tags := db.item_tags ++ [⟨iid, tid⟩] } := by
  unfold DB.link_item_tag
  simp [h]

/-- Linking a pair already present in `item_people` is a no-op. -/
theorem link_item_person_of_mem {db : DB} {iid pid : String}
    (h : (⟨iid, pid⟩ : ItemPerson) ∈ db.item_people) :
    db.link_item_person iid pid = db := by
  unfold DB.link_item_person
  simp [h]

/-- Linking an absent pair appends it to `item_people`. -/
theorem link_item_person_of_not_mem {db : DB} {iid pid : String}
    (h : (⟨iid, pid⟩ : ItemPerson) ∉ db.item_people) :
    db.link_item_person iid pid = { db with item_people := db.item_people ++ [⟨iid, pid⟩] } := by
  unfold DB.link_item_person
  simp [h]

/-- **C5**: linking the same (item, tag) pair twice succeeds and leaves
exactly one row for the pair in `item_tags`, the second call being a
no-op; likewise for `link_item_person` and `item_people` — an idempotent
set-union, not a multiset append. -/
theorem claim5_link_twice_one_row (db : DB) (iid tid pid : String)
    (ht : db.item_tags.Nodup) (hp : db.item_people.Nodup) :
    (((db.link_item_tag iid tid).link_item_tag iid tid).item_tags.count ⟨iid, tid⟩ = 1
      ∧ (db.link_item_tag iid tid).link_item_tag iid tid = db.link_item_tag iid tid
      ∧ (db.link_item_tag iid tid).item_tags.Nodup)
    ∧ (((db.link_item_person iid pid).link_item_person iid pid).item_people.count ⟨iid, pid⟩ = 1
      ∧ (db.link_item_person iid pid).link_item_person iid pid = db.link_item_person iid pid
      ∧ (db.link_item_person iid pid).item_people.Nodup) := by
  constructor
  · by_cases hmem : (⟨iid, tid⟩ : ItemTag) ∈ db.item_tags
    · have h1 := link_item_tag_of_mem hmem
      rw [h1, h1]
      exact ⟨List.count_eq_one_of_mem ht hmem, rfl, ht⟩
    · have h1 := link_item_tag_of_not_mem hmem
      have hmem2 : (⟨iid, tid⟩ : ItemTag) ∈ (db.link_item_tag iid tid).item_tags := by
        rw [h1]
        simp
      have h2 := link_item_tag_of_mem hmem2
      have hnd : (db.link_item_tag iid tid).item_tags.Nodup := by
        rw [h1]
        simpa [List.nodup_append] using ⟨ht, fun h => hmem h⟩
      exact ⟨by rw [h2]; exact List.count_eq_one_of_mem hnd hmem2, h2, hnd⟩
  · by_cases hmem : (⟨iid, pid⟩ : ItemPerson) ∈ db.item_people
    · have h1 := link_item_person_of_mem hmem
      rw [h1, h1]
      exact ⟨List.count_eq_one_of_mem hp hmem, rfl, hp⟩
    · have h1 := link_item_person_of_not_mem hmem
      have hmem2 : (⟨iid, pid⟩ : ItemPerson) ∈ (db.link_item_person iid pid).item_people := by
        rw [h1]
        simp
      have h2 := link_item_person_of_mem hmem2
      have hnd : (db.link_item_person iid pid).item_people.Nodup := by
        rw [h1]
        simpa [List.nodup_append] using ⟨hp, fun h => hmem h⟩
      exact ⟨by rw [h2]; exact List.count_eq_one_of_mem hnd hmem2, h2, hnd⟩

/-- Witness for C5 at a concrete store: the empty join tables are nodup
and double-linking a pair leaves one row. -/
theorem claim5_link_twice_one_row_witness :
    (DB.empty.item_tags.Nodup ∧ DB.empty.item_people.Nodup)
    ∧ ((DB.empty.link_item_tag "i1" "t1").link_item_tag "i1" "t1").item_tags.count
        ⟨"i1", "t1"⟩ = 1
    ∧ ((DB.empty.link_item_person "i1" "p1").link_item_person "i1" "p1").item_people.count
        ⟨"i1", "p1"⟩ = 1 :=
  ⟨⟨by decide, by decide⟩,
   (claim5_link_twice_one_row DB.empty "i1" "t1" "p1" (by decide) (by decide)).1.1,
   (claim5_link_twice_one_row DB.empty "i1" "t1" "p1" (by decide) (by decide)).2.1⟩

/-- **C7**: a `create_entry` request whose timestamp string does not parse
fails with the validation error and leaves the store unchanged — no
entry, item, tag, person, jira-ref or join row is written. -/
theorem claim7_create_entry_invalid_timestamp (parse : String → Option Nat) (db : DB)
    (now : Nat) (req : CreateEntryRequest) (h : parse req.timestamp = none) :
    create_entry_cmd parse db now req = (db, Except.error "Invalid timestamp") := by
  unfold create_entry_cmd
  rw [h]

/-- Witness for C7 at a concrete input: the never-successful parser
refuses the request and the command leaves the empty store unchanged. -/
theorem claim7_create_entry_invalid_timestamp_witness :
    ((fun _ => (none : Option Nat)) "not-a-date" = none)
    ∧ create_entry_cmd (fun _ => none) DB.empty 0 { timestamp := "not-a-date", items := [] }
        = (DB.empty, Except.error "Invalid timestamp") :=
  ⟨rfl, claim7_create_entry_invalid_timestamp (fun _ => none) DB.empty 0
    { timestamp := "not-a-date", items := [] } rfl⟩

/-- The ids of the entries a `delete_entry` call actually removes. -/
def removedEntryIds (db : DB) (eid : String) : List String :=
  (db.entries.filter (fun e => e.id == eid)).map (·.id)

/-- The ids of the entry items a `delete_entry` call cascade-removes. -/
def removedItemIdsOfEntry (db : DB) (eid : String) : List String :=
  (db.entry_items.filter (fun it => (removedEntryIds db eid).contains it.entry_id)).map (·.id)

/-- `delete_entry` unfolded componentwise. -/
theorem delete_entry_eq (db : DB) (eid : String) :
    db.delete_entry eid =
      { db with
        entries := db.entries.filter (fun e => !(e.id == eid)),
        entry_items := db.entry_items.filter
          (fun it => !((removedEntryIds db eid).contains it.entry_id)),
        jira_refs := db.jira_refs.filter
          (fun j => !((removedItemIdsOfEntry db eid).contains j.entry_item_id)),
        item_tags := db.item_tags.filter
          (fun r => !((removedItemIdsOfEntry db eid).contains r.entry_item_id)),
        item_people := db.item_people.filter
          (fun r => !((removedItemIdsOfEntry db eid).contains r.entry_item_id)),
        meeting_actions := db.meeting_actions.map (fun a =>
          if a.entry_item_id.any (fun i => (removedItemIdsOfEntry db eid).contains i) then
            { a with entry_item_id := none }
          else a) } :=
  rfl

/-- The ids removed by `delete_entry_item` (nonempty iff the item exists). -/
def removedItemIds (db : DB) (iid : String) : List String :=
  (db.entry_items.filter (fun it => it.id == iid)).map (·.id)

/-- `delete_entry_item` unfolded componentwise. -/
theorem delete_entry_item_eq (db : DB) (iid : String) :
    db.delete_entry_item iid =
      { db with
        entry_items := db.entry_items.filter (fun it => !(it.id == iid)),
        jira_refs := db.jira_refs.filter
          (fun j => !((removedItemIds db iid).contains j.entry_item_id)),
        item_tags := db.item_tags.filter
          (fun r => !((removedItemIds db iid).contains r.entry_item_id)),
        item_people := db.item_people.filter
          (fun r => !((removedItemIds db iid).contains r.entry_item_id)),
        meeting_actions := db.meeting_actions.map (fun a =>
          if a.entry_item_id.any (fun i => (removedItemIds db iid).contains i) then
            { a with entry_item_id := none }
          else a) } :=
  rfl

/-- An item of the deleted entry has its id among the cascade-removed ids,
as soon as its entry really exists. -/
theorem mem_removedItemIdsOfEntry {db : DB} {eid : String} {it : EntryItem}
    (hit : it ∈ db.entry_items) (heq : it.entry_id = eid)
    (he : ∃ e ∈ db.entries, e.id = eid) :
    it.id ∈ removedItemIdsOfEntry db eid := by
  obtain ⟨e, hemem, heid⟩ := he
  have hefil : e ∈ db.entries.filter (fun e => e.id == eid) := by
    simp [List.mem_filter, hemem, heid]
  have hidmem : it.entry_id ∈ removedEntryIds db eid := by
    have h1 : e.id ∈ removedEntryIds db eid := List.mem_map_of_mem _ hefil
    have h2 : it.entry_id = e.id := by rw [heq, heid]
    rw [h2]
    exact h1
  have hfil : it ∈ db.entry_items.filter
      (fun x => (removedEntryIds db eid).contains x.entry_id) := by
    simp [List.mem_filter, hit, hidmem]
  exact List.mem_map_of_mem _ hfil

/-- **C2**: after `delete_entry`, no `EntryItem` with the deleted entry's
id remains, and no jira ref, item_tags row or item_people row belonging
to any of that entry's former items remains.  The hypothesis is the
foreign-key integrity the schema enforces: every item's `entry_id`
references an existing entry. -/
theorem claim2_delete_entry_no_orphans (db : DB) (eid : String)
    (href : ∀ it ∈ db.entry_items, ∃ e ∈ db.entries, e.id = it.entry_id) :
    (∀ it ∈ (db.delete_entry eid).entry_items, it.entry_id ≠ eid)
    ∧ (∀ it ∈ db.entry_items, it.entry_id = eid →
        (∀ j ∈ (db.delete_entry eid).jira_refs, j.entry_item_id ≠ it.id)
        ∧ (∀ r ∈ (db.delete_entry eid).item_tags, r.entry_item_id ≠ it.id)
        ∧ (∀ r ∈ (db.delete_entry eid).item_people, r.entry_item_id ≠ it.id)) := by
  rw [delete_entry_eq]
  constructor
  · intro it hit heq
    simp only [List.mem_filter, Bool.not_eq_eq_eq_not, Bool.not_true] at hit
    obtain ⟨hmem, hcond⟩ := hit
    obtain ⟨e, hemem, heid⟩ := href it hmem
    have : it.entry_id ∈ removedEntryIds db eid := by
      unfold removedEntryIds
      rw [← heid]
      refine List.mem_map_of_mem _ ?_
      simp [List.mem_filter, hemem, heid, heq]
    simp [this] at hcond
  · intro it hit heq
    have hridm : it.id ∈ removedItemIdsOfEntry db eid := by
      refine mem_removedItemIdsOfEntry hit heq ?_
      obtain ⟨e, hemem, heid⟩ := href it hit
      exact ⟨e, hemem, heq ▸ heid⟩
    refine ⟨?_, ?_, ?_⟩
    · intro j hj hje
      simp only [List.mem_filter, Bool.not_eq_eq_eq_not, Bool.not_true] at hj
      rw [hje] at hj
      simp [hridm] at hj
    · intro r hr hre
      simp only [List.mem_filter, Bool.not_eq_eq_eq_not, Bool.not_true] at hr
      rw [hre] at hr
      simp [hridm] at hr
    · intro r hr hre
      simp only [List.mem_filter, Bool.not_eq_eq_eq_not, Bool.not_true] at hr
      rw [hre] at hr
      simp [hridm] at hr

/-- Witness for C2 at a concrete store holding one entry with one item,
one jira ref and join rows for it. -/
theorem claim2_delete_entry_no_orphans_witness :
    (∀ it ∈ ({ entries := [⟨"e1", 5, 0, 0⟩],
               entry_items := [⟨"i1", "e1", "Note", "c", none, 0, 0⟩],
               tags := [⟨"t1", "team-a", none, "#6c757d", none, 0, 0⟩],
               people := [], jira_refs := [⟨"j1", "i1", "SCO-1", 0⟩],
               item_tags := [⟨"i1", "t1"⟩], item_people := [],
               meeting_actions := [], nextId := 9 } : DB).entry_items,
        ∃ e ∈ ({ entries := [⟨"e1", 5, 0, 0⟩],
                 entry_items := [⟨"i1", "e1", "Note", "c", none, 0, 0⟩],
                 tags := [⟨"t1", "team-a", none, "#6c757d", none, 0, 0⟩],
                 people := [], jira_refs := [⟨"j1", "i1", "SCO-1", 0⟩],
                 item_tags := [⟨"i1", "t1"⟩], item_people := [],
                 meeting_actions := [], nextId := 9 } : DB).entries, e.id = it.entry_id)
    ∧ (∀ it ∈ (({ entries := [⟨"e1", 5, 0, 0⟩],
                  entry_items := [⟨"i1", "e1", "Note", "c", none, 0, 0⟩],
                  tags := [⟨"t1", "team-a", none, "#6c757d", none, 0, 0⟩],
                  people := [], jira_refs := [⟨"j1", "i1", "SCO-1", 0⟩],
                  item_tags := [⟨"i1", "t1"⟩], item_people := [],
                  meeting_actions := [], nextId := 9 } : DB).delete_entry "e1").entry_items,
        it.entry_id ≠ "e1") :=
  ⟨by decide,
   (claim2_delete_entry_no_orphans
     { entries := [⟨"e1", 5, 0, 0⟩],
       entry_items := [⟨"i1", "e1", "Note", "c", none, 0, 0⟩],
       tags := [⟨"t1", "team-a", none, "#6c757d", none, 0, 0⟩],
       people := [], jira_refs := [⟨"j1", "i1", "SCO-1", 0⟩],
       item_tags := [⟨"i1", "t1"⟩], item_people := [],
       meeting_actions := [], nextId := 9 } "e1" (by decide)).1⟩

/-- **C6**: deleting an `EntryItem` that a `MeetingAction` points to
removes the item together with its jira refs and join rows, while the
meeting action row survives with `entry_item_id` set to null — the
action table keeps its length and holds the same row with the reference
cleared. -/
theorem claim6_delete_item_nulls_action (db : DB) (iid : String) (a : MeetingAction)
    (ha : a ∈ db.meeting_actions) (haid : a.entry_item_id = some iid)
    (hit : ∃ it ∈ db.entry_items, it.id = iid) :
    (∀ it ∈ (db.delete_entry_item iid).entry_items, it.id ≠ iid)
    ∧ (∀ j ∈ (db.delete_entry_item iid).jira_refs, j.entry_item_id ≠ iid)
    ∧ (∀ r ∈ (db.delete_entry_item iid).item_tags, r.entry_item_id ≠ iid)
    ∧ (∀ r ∈ (db.delete_entry_item iid).item_people, r.entry_item_id ≠ iid)
    ∧ { a with entry_item_id := none } ∈ (db.delete_entry_item iid).meeting_actions
    ∧ (db.delete_entry_item iid).meeting_actions.length = db.meeting_actions.length := by
  obtain ⟨it0, hit0, hit0id⟩ := hit
  have hrid : iid ∈ removedItemIds db iid := by
    have h1 : it0 ∈ db.entry_items.filter (fun x => x.id == iid) := by
      simp [List.mem_filter, hit0, hit0id]
    have h2 : it0.id ∈ removedItemIds db iid := List.mem_map_of_mem _ h1
    exact hit0id ▸ h2
  rw [delete_entry_item_eq]
  refine ⟨?_, ?_, ?_, ?_, ?_, ?_⟩
  · intro it hmem heq
    simp only [List.mem_filter, Bool.not_eq_eq_eq_not, Bool.not_true] at hmem
    rw [heq] at hmem
    simp at hmem
  · intro j hmem heq
    simp only [List.mem_filter, Bool.not_eq_eq_eq_not, Bool.not_true] at hmem
    rw [heq] at hmem
    simp [hrid] at hmem
  · intro r hmem heq
    simp only [List.mem_filter, Bool.not_eq_eq_eq_not, Bool.not_true] at hmem
    rw [heq] at hmem
    simp [hrid] at hmem
  · intro r hmem heq
    simp only [List.mem_filter, Bool.not_eq_eq_eq_not, Bool.not_true] at hmem
    rw [heq] at hmem
    simp [hrid] at hmem
  · have himg :
        (if a.entry_item_id.any (fun i => (removedItemIds db iid).contains i) then
            { a with entry_item_id := none }
          else a) = { a with entry_item_id := none } := by
      rw [haid]
      simp [hrid]
    have hmm : ({ a with entry_item_id := none } : MeetingAction) ∈
        db.meeting_actions.map (fun x =>
          if x.entry_item_id.any (fun i => (removedItemIds db iid).contains i) then
            { x with entry_item_id := none }
          else x) :=
      List.mem_map.mpr ⟨a, ha, himg⟩
    exact hmm
  · exact List.length_map _ _

/-- Witness for C6: a store with one item, a jira ref, join rows and a
meeting action pointing at the item. -/
theorem claim6_delete_item_nulls_action_witness :
    ((⟨"a1", "m1", some "i1", "follow up", none, none, none, "open", "medium", 0, 0⟩ : MeetingAction)
        ∈ ({ entries := [⟨"e1", 5, 0, 0⟩],
             entry_items := [⟨"i1", "e1", "Note", "c", none, 0, 0⟩],
             tags := [], people := [], jira_refs := [⟨"j1", "i1", "SCO-1", 0⟩],
             item_tags := [], item_people := [],
             meeting_actions := [⟨"a1", "m1", some "i1", "follow up", none, none, none,
               "open", "medium", 0, 0⟩], nextId := 9 } : DB).meeting_actions)
    ∧ ({ (⟨"a1", "m1", some "i1", "follow up", none, none, none, "open", "medium", 0, 0⟩ :
          MeetingAction) with entry_item_id := none }
        ∈ (({ entries := [⟨"e1", 5, 0, 0⟩],
              entry_items := [⟨"i1", "e1", "Note", "c", none, 0, 0⟩],
              tags := [], people := [], jira_refs := [⟨"j1", "i1", "SCO-1", 0⟩],
              item_tags := [], item_people := [],
              meeting_actions := [⟨"a1", "m1", some "i1", "follow up", none, none, none,
                "open", "medium", 0, 0⟩], nextId := 9 } : DB).delete_entry_item
            "i1").meeting_actions) :=
  ⟨by decide,
   (claim6_delete_item_nulls_action
     { entries := [⟨"e1", 5, 0, 0⟩],
       entry_items := [⟨"i1", "e1", "Note", "c", none, 0, 0⟩],
       tags := [], people := [], jira_refs := [⟨"j1", "i1", "SCO-1", 0⟩],
       item_tags := [], item_people := [],
       meeting_actions := [⟨"a1", "m1", some "i1", "follow up", none, none, none,
         "open", "medium", 0, 0⟩], nextId := 9 } "i1"
     ⟨"a1", "m1", some "i1", "follow up", none, none, none, "open", "medium", 0, 0⟩
     (by decide) (by decide) ⟨⟨"i1", "e1", "Note", "c", none, 0, 0⟩, by decide, by decide⟩).2.2.2.2.1⟩

/-- **C4**: `get_all_entries_with_items` returns the entries sorted by
event timestamp in descending order and, within each returned entry, the
items sorted by `created_at` in ascending order. -/
theorem claim4_aggregation_ordered (db : DB) :
    List.Pairwise (fun a b => b.entry.timestamp ≤ a.entry.timestamp)
      db.get_all_entries_with_items
    ∧ ∀ ew ∈ db.get_all_entries_with_items,
        List.Pairwise (fun a b => a.item.created_at ≤ b.item.created_at) ew.items := by
  have htr1 : ∀ a b c : Entry,
      (fun a b => decide (b.timestamp ≤ a.timestamp)) a b = true →
      (fun a b => decide (b.timestamp ≤ a.timestamp)) b c = true →
      (fun a b => decide (b.timestamp ≤ a.timestamp)) a c = true := by
    intro a b c hab hbc
    simp only [decide_eq_true_eq] at *
    omega
  have hto1 : ∀ a b : Entry,
      ((fun a b => decide (b.timestamp ≤ a.timestamp)) a b
        || (fun a b => decide (b.timestamp ≤ a.timestamp)) b a) = true := by
    intro a b
    simp only [Bool.or_eq_true, decide_eq_true_eq]
    omega
  have htr2 : ∀ a b c : EntryItem,
      (fun a b => decide (a.created_at ≤ b.created_at)) a b = true →
      (fun a b => decide (a.created_at ≤ b.created_at)) b c = true →
      (fun a b => decide (a.created_at ≤ b.created_at)) a c = true := by
    intro a b c hab hbc
    simp only [decide_eq_true_eq] at *
    omega
  have hto2 : ∀ a b : EntryItem,
      ((fun a b => decide (a.created_at ≤ b.created_at)) a b
        || (fun a b => decide (a.created_at ≤ b.created_at)) b a) = true := by
    intro a b
    simp only [Bool.or_eq_true, decide_eq_true_eq]
    omega
  constructor
  · unfold DB.get_all_entries_with_items
    refine List.Pairwise.map _ ?_ (List.sorted_mergeSort htr1 hto1 db.entries)
    intro a b h
    simpa using h
  · intro ew hew
    unfold DB.get_all_entries_with_items at hew
    obtain ⟨e, _, rfl⟩ := List.mem_map.mp hew
    dsimp only
    unfold DB.get_entry_items_with_metadata
    refine List.Pairwise.map _ ?_
      (List.sorted_mergeSort htr2 hto2 (db.entry_items.filter (fun it => it.entry_id == e.id)))
    intro a b h
    simpa using h

/-- The item loop of `create_entry` answers with the request's tag, jira
and people lists, whatever the store does. -/
theorem processItems_echo (now : Nat) (eid : String) :
    ∀ (l : List CreateItemRequest) (db : DB),
      (processItems now eid db l).2.map ItemResponse.tags = l.map CreateItemRequest.tags
      ∧ (processItems now eid db l).2.map ItemResponse.jira = l.map CreateItemRequest.jira
      ∧ (processItems now eid db l).2.map ItemResponse.people = l.map CreateItemRequest.people
  | [], db => by
    simp [processItems]
  | r :: rest, db => by
    have ih := processItems_echo now eid rest (processItem db now eid r).1
    simp only [processItems, List.map_cons]
    refine ⟨?_, ?_, ?_⟩
    · rw [ih.1]
      simp [processItem]
    · rw [ih.2.1]
      simp [processItem]
    · rw [ih.2.2]
      simp [processItem]

/-- **C9**: for every `create_entry` request that passes timestamp
validation, the tags, jira and people lists in each item of the response
are the request's lists echoed verbatim — same order, duplicates
preserved — rather than a read-back of stored state. -/
theorem claim9_create_entry_echoes (parse : String → Option Nat) (db : DB) (now ts : Nat)
    (req : CreateEntryRequest) (h : parse req.timestamp = some ts) :
    ∃ resp, (create_entry_cmd parse db now req).2 = Except.ok resp
      ∧ resp.items.map ItemResponse.tags = req.items.map CreateItemRequest.tags
      ∧ resp.items.map ItemResponse.jira = req.items.map CreateItemRequest.jira
      ∧ resp.items.map ItemResponse.people = req.items.map CreateItemRequest.people := by
  unfold create_entry_cmd
  rw [h]
  dsimp only
  refine ⟨_, rfl, ?_, ?_, ?_⟩
  · exact (processItems_echo now (db.create_entry now ts).2.id req.items
      (db.create_entry now ts).1).1
  · exact (processItems_echo now (db.create_entry now ts).2.id req.items
      (db.create_entry now ts).1).2.1
  · exact (processItems_echo now (db.create_entry now ts).2.id req.items
      (db.create_entry now ts).1).2.2

/-- Witness for C9: a request listing the same tag twice is echoed with
the duplicate preserved. -/
theorem claim9_create_entry_echoes_witness :
    ((fun _ => (some 5 : Option Nat)) "2024-01-01T09:00:00Z" = some 5)
    ∧ ∃ resp,
        (create_entry_cmd (fun _ => some 5) DB.empty 0
          { timestamp := "2024-01-01T09:00:00Z",
            items := [{ item_type := "Note", content := "stand-up", project := none,
                        tags := ["team-a", "team-a"], jira := ["SCO-1"],
                        people := ["alice"] }] }).2 = Except.ok resp
        ∧ resp.items.map ItemResponse.tags = [["team-a", "team-a"]]
        ∧ resp.items.map ItemResponse.jira = [["SCO-1"]]
        ∧ resp.items.map ItemResponse.people = [["alice"]] :=
  ⟨rfl, claim9_create_entry_echoes (fun _ => some 5) DB.empty 0 5
    { timestamp := "2024-01-01T09:00:00Z",
      items := [{ item_type := "Note", content := "stand-up", project := none,
                  tags := ["team-a", "team-a"], jira := ["SCO-1"], people := ["alice"] }] }
    rfl⟩

/-- `get_or_create_tag` never touches `entry_items`. -/
theorem get_or_create_tag_entry_items (db : DB) (now : Nat) (n : String) :
    (db.get_or_create_tag now n).1.entry_items = db.entry_items := by
  unfold DB.get_or_create_tag
  split <;> rfl

/-- `get_or_create_person` never touches `entry_items`. -/
theorem get_or_create_person_entry_items (db : DB) (now : Nat) (n : String) :
    (db.get_or_create_person now n).1.entry_items = db.entry_items := by
  unfold DB.get_or_create_person
  split <;> rfl

/-- `link_item_tag` never touches `entry_items`. -/
theorem link_item_tag_entry_items (db : DB) (i t : String) :
    (db.link_item_tag i t).entry_items = db.entry_items := by
  by_cases h : (⟨i, t⟩ : ItemTag) ∈ db.item_tags
  · rw [link_item_tag_of_mem h]
  · rw [link_item_tag_of_not_mem h]

/-- `link_item_person` never touches `entry_items`. -/
theorem link_item_person_entry_items (db : DB) (i p : String) :
    (db.link_item_person i p).entry_items = db.entry_items := by
  by_cases h : (⟨i, p⟩ : ItemPerson) ∈ db.item_people
  · rw [link_item_person_of_mem h]
  · rw [link_item_person_of_not_mem h]

/-- The tag-linking loop never touches `entry_items`. -/
theorem linkTagNames_entry_items (now : Nat) (iid : String) :
    ∀ (l : List String) (db : DB), (linkTagNames now iid db l).entry_items = db.entry_items
  | [], _ => rfl
  | n :: rest, db => by
    rw [linkTagNames]
    rw [linkTagNames_entry_items now iid rest]
    rw [link_item_tag_entry_items, get_or_create_tag_entry_items]

/-- The person-linking loop never touches `entry_items`. -/
theorem linkPersonNames_entry_items (now : Nat) (iid : String) :
    ∀ (l : List String) (db : DB), (linkPersonNames now iid db l).entry_items = db.entry_items
  | [], _ => rfl
  | n :: rest, db => by
    rw [linkPersonNames]
    rw [linkPersonNames_entry_items now iid rest]
    rw [link_item_person_entry_items, get_or_create_person_entry_items]

/-- `create_jira_ref` never touches `entry_items`. -/
theorem create_jira_ref_entry_items (db : DB) (now : Nat) (i k : String) :
    (db.create_jira_ref now i k).1.entry_items = db.entry_items :=
  rfl

/-- The jira-ref loop never touches `entry_items`. -/
theorem addJiraKeys_entry_items (now : Nat) (iid : String) :
    ∀ (l : List String) (db : DB), (addJiraKeys now iid db l).entry_items = db.entry_items
  | [], _ => rfl
  | k :: rest, db => by
    rw [addJiraKeys]
    rw [addJiraKeys_entry_items now iid rest]
    rw [create_jira_ref_entry_items]

/-- The post-command store of `update_entry_item` is the store after the
five mutation phases: the final read-back does not mutate. -/
theorem update_entry_item_cmd_fst (db : DB) (now : Nat) (iid : String)
    (u : UpdateEntryItemRequest) :
    (update_entry_item_cmd db now iid u).1 = updateStages db now iid u := by
  unfold update_entry_item_cmd
  dsimp only
  split
  · rfl
  · split <;> rfl

/-- `remove_item_tags` never touches `entry_items`. -/
theorem remove_item_tags_entry_items (db : DB) (iid : String) :
    (db.remove_item_tags iid).entry_items = db.entry_items :=
  rfl

/-- `remove_item_people` never touches `entry_items`. -/
theorem remove_item_people_entry_items (db : DB) (iid : String) :
    (db.remove_item_people iid).entry_items = db.entry_items :=
  rfl

/-- `remove_item_jira_refs` never touches `entry_items`. -/
theorem remove_item_jira_refs_entry_items (db : DB) (iid : String) :
    (db.remove_item_jira_refs iid).entry_items = db.entry_items :=
  rfl

/-- After the five mutation phases, `entry_items` is what the content and
project phases alone made of it. -/
theorem updateStages_entry_items (db : DB) (now : Nat) (iid : String)
    (u : UpdateEntryItemRequest) :
    (updateStages db now iid u).entry_items =
      (match u.project with
        | some p => (match u.content with
                     | some c => db.update_entry_item_content now iid c
                     | none => db).update_entry_item_project now iid (some p)
        | none => match u.content with
                  | some c => db.update_entry_item_content now iid c
                  | none => db : DB).entry_items := by
  unfold updateStages
  rcases u.tags with _ | ts <;> rcases u.people with _ | ps <;> rcases u.jira with _ | js <;>
    simp only [addJiraKeys_entry_items, linkPersonNames_entry_items, linkTagNames_entry_items,
      remove_item_jira_refs_entry_items, remove_item_people_entry_items,
      remove_item_tags_entry_items]

/-- Updating the content leaves every function of an item's id and
project unchanged. -/
theorem update_content_map_id_project {β : Type} (db : DB) (now : Nat) (iid c : String)
    (g : String → Option String → β) :
    (db.update_entry_item_content now iid c).entry_items.map (fun it => g it.id it.project)
      = db.entry_items.map (fun it => g it.id it.project) := by
  unfold DB.update_entry_item_content
  rw [List.map_map]
  refine List.map_congr_left ?_
  intro it _
  by_cases h : it.id = iid <;> simp [h]

/-- Updating the project writes the given value exactly at the matching
id and leaves other items unchanged. -/
theorem update_project_id_project (db : DB) (now : Nat) (iid : String) (p? : Option String) :
    (db.update_entry_item_project now iid p?).entry_items.map (fun it => (it.id, it.project))
      = db.entry_items.map (fun it => (it.id, if it.id = iid then p? else it.project)) := by
  unfold DB.update_entry_item_project
  rw [List.map_map]
  refine List.map_congr_left ?_
  intro it _
  by_cases h : it.id = iid <;> simp [h]

/-- Across the five mutation phases, an item's project becomes the
supplied value at the matching id when the request carries one and is
left unchanged otherwise. -/
theorem updateStages_id_project (db : DB) (now : Nat) (iid : String)
    (u : UpdateEntryItemRequest) :
    (updateStages db now iid u).entry_items.map (fun it => (it.id, it.project))
      = db.entry_items.map (fun it =>
          (it.id, if it.id = iid then u.project.or it.project else it.project)) := by
  have hmap : ∀ l : List EntryItem,
      l.map (fun it => (it.id, it.project))
        = l.map (fun it => (it.id, if it.id = iid then Option.none.or it.project
            else it.project)) := by
    intro l
    refine List.map_congr_left ?_
    intro it _
    by_cases h : it.id = iid <;> simp [h]
  have hme := updateStages_entry_items db now iid u
  rcases hp : u.project with _ | p
  · rw [hp] at hme
    rcases hc : u.content with _ | c
    · rw [hc] at hme
      dsimp only at hme
      rw [hme]
      exact hmap db.entry_items
    · rw [hc] at hme
      dsimp only at hme
      rw [hme]
      rw [update_content_map_id_project db now iid c (fun i pr => (i, pr))]
      exact hmap db.entry_items
  · rw [hp] at hme
    rcases hc : u.content with _ | c
    · rw [hc] at hme
      dsimp only at hme
      rw [hme, update_project_id_project]
      rfl
    · rw [hc] at hme
      dsimp only at hme
      rw [hme, update_project_id_project]
      exact update_content_map_id_project db now iid c
        (fun i pr => (i, if i = iid then some p else pr))

/-- **C10**: through the public `update_entry_item` command an item's
project can never go from present to absent — an absent request field
leaves the stored project unchanged and a present one always writes that
string, so no command input writes null into the column even though the
repository method accepts an optional value. -/
theorem claim10_project_never_cleared (db : DB) (now : Nat) (iid : String)
    (u : UpdateEntryItemRequest) :
    (update_entry_item_cmd db now iid u).1.entry_items.map (fun it => (it.id, it.project))
      = db.entry_items.map (fun it =>
          (it.id, if it.id = iid then u.project.or it.project else it.project)) := by
  rw [update_entry_item_cmd_fst]
  exact updateStages_id_project db now iid u

/-- The id of the tag row carrying a given unique name, resolved the way
`get_or_create_tag` looks it up. -/
def tagIdByName (db : DB) (n : String) : Option String :=
  (db.tags.find? (fun t => t.name == n)).map (·.id)

/-- Stores with the same `tags` table resolve names identically. -/
theorem tagIdByName_congr {d1 d2 : DB} (h : d1.tags = d2.tags) (n : String) :
    tagIdByName d1 n = tagIdByName d2 n := by
  unfold tagIdByName
  rw [h]

/-- After `get_or_create_tag`, the requested name resolves to the returned
row's id. -/
theorem get_or_create_tag_resolves (db : DB) (now : Nat) (n : String) :
    tagIdByName (db.get_or_create_tag now n).1 n = some (db.get_or_create_tag now n).2.id := by
  rcases hf : db.tags.find? (fun t => t.name == n) with _ | t
  · rw [get_or_create_tag_not_found now hf]
    unfold tagIdByName
    dsimp only
    rw [List.find?_append, hf]
    simp
  · rw [get_or_create_tag_found now hf]
    unfold tagIdByName
    rw [hf]
    rfl

/-- `get_or_create_tag` preserves every already-resolvable name. -/
theorem get_or_create_tag_resolves_mono (db : DB) (now : Nat) (n m : String) {i : String}
    (h : tagIdByName db m = some i) :
    tagIdByName (db.get_or_create_tag now n).1 m = some i := by
  rcases hf : db.tags.find? (fun t => t.name == n) with _ | t
  · rw [get_or_create_tag_not_found now hf]
    unfold tagIdByName at h ⊢
    dsimp only
    rw [List.find?_append]
    rcases hm : db.tags.find? (fun t => t.name == m) with _ | tm
    · rw [hm] at h
      cases h
    · rw [hm] at h
      rw [hm]
      exact h
  · rw [get_or_create_tag_found now hf]
    exact h

/-- `get_or_create_tag` never touches `item_tags`. -/
theorem get_or_create_tag_item_tags (db : DB) (now : Nat) (n : String) :
    (db.get_or_create_tag now n).1.item_tags = db.item_tags := by
  unfold DB.get_or_create_tag
  split <;> rfl

/-- `get_or_create_tag` only ever appends tag rows. -/
theorem get_or_create_tag_tags_mono (db : DB) (now : Nat) (n : String) :
    ∀ t ∈ db.tags, t ∈ (db.get_or_create_tag now n).1.tags := by
  intro t ht
  rcases hf : db.tags.find? (fun x => x.name == n) with _ | t0
  · rw [get_or_create_tag_not_found now hf]
    exact List.mem_append_left _ ht
  · rw [get_or_create_tag_found now hf]
    exact ht

/-- `link_item_tag` never touches `tags`. -/
theorem link_item_tag_tags (db : DB) (i t : String) :
    (db.link_item_tag i t).tags = db.tags := by
  by_cases h : (⟨i, t⟩ : ItemTag) ∈ db.item_tags
  · rw [link_item_tag_of_mem h]
  · rw [link_item_tag_of_not_mem h]

/-- Membership in `item_tags` after `link_item_tag`. -/
theorem link_item_tag_mem_iff (db : DB) (i t : String) (x : ItemTag) :
    x ∈ (db.link_item_tag i t).item_tags ↔ x ∈ db.item_tags ∨ x = ⟨i, t⟩ := by
  by_cases h : (⟨i, t⟩ : ItemTag) ∈ db.item_tags
  · rw [link_item_tag_of_mem h]
    constructor
    · exact fun hx => Or.inl hx
    · rintro (hx | rfl)
      · exact hx
      · exact h
  · rw [link_item_tag_of_not_mem h]
    simp [List.mem_append]

/-- The linked pair is present after `link_item_tag`. -/
theorem link_item_tag_self_mem (db : DB) (i t : String) :
    (⟨i, t⟩ : ItemTag) ∈ (db.link_item_tag i t).item_tags := by
  rw [link_item_tag_mem_iff]
  exact Or.inr rfl

/-- `link_item_tag` keeps `item_tags` duplicate-free. -/
theorem link_item_tag_nodup (db : DB) (i t : String) (h : db.item_tags.Nodup) :
    (db.link_item_tag i t).item_tags.Nodup := by
  by_cases hm : (⟨i, t⟩ : ItemTag) ∈ db.item_tags
  · rw [link_item_tag_of_mem hm]
    exact h
  · rw [link_item_tag_of_not_mem hm]
    simpa [List.nodup_append] using ⟨h, fun hh => hm hh⟩

/-- The tag-replacement loop of `update_entry_item`: it keeps `item_tags`
duplicate-free, only appends tag rows, preserves every resolvable name,
only adds join rows for the given item, adds exactly the rows whose tag
ids resolve the supplied names, and links every supplied name. -/
theorem linkTagNames_spec (now : Nat) (iid : String) :
    ∀ (l : List String) (db : DB), db.item_tags.Nodup →
      (linkTagNames now iid db l).item_tags.Nodup
      ∧ (∀ t ∈ db.tags, t ∈ (linkTagNames now iid db l).tags)
      ∧ (∀ m i, tagIdByName db m = some i →
          tagIdByName (linkTagNames now iid db l) m = some i)
      ∧ (∀ r ∈ db.item_tags, r ∈ (linkTagNames now iid db l).item_tags)
      ∧ (∀ r ∈ (linkTagNames now iid db l).item_tags,
          r ∈ db.item_tags ∨ (r.entry_item_id = iid
            ∧ ∃ n ∈ l, tagIdByName (linkTagNames now iid db l) n = some r.tag_id))
      ∧ (∀ n ∈ l, ∃ i, tagIdByName (linkTagNames now iid db l) n = some i
          ∧ (⟨iid, i⟩ : ItemTag) ∈ (linkTagNames now iid db l).item_tags)
  | [], db => fun hnd => by
    refine ⟨hnd, fun t ht => ht, fun m i h => h, fun r hr => hr, fun r hr => Or.inl hr, ?_⟩
    intro n hn
    cases hn
  | n :: rest, db => fun hnd => by
    have heq : linkTagNames now iid db (n :: rest)
        = linkTagNames now iid
            ((db.get_or_create_tag now n).1.link_item_tag iid
              (db.get_or_create_tag now n).2.id) rest := by
      rw [linkTagNames]
    have hndA : (db.get_or_create_tag now n).1.item_tags.Nodup := by
      rw [get_or_create_tag_item_tags]
      exact hnd
    have hndB : ((db.get_or_create_tag now n).1.link_item_tag iid
        (db.get_or_create_tag now n).2.id).item_tags.Nodup :=
      link_item_tag_nodup _ _ _ hndA
    have ih := linkTagNames_spec now iid rest
      ((db.get_or_create_tag now n).1.link_item_tag iid (db.get_or_create_tag now n).2.id) hndB
    rw [heq]
    have hres : tagIdByName (linkTagNames now iid
        ((db.get_or_create_tag now n).1.link_item_tag iid
          (db.get_or_create_tag now n).2.id) rest) n
        = some (db.get_or_create_tag now n).2.id := by
      refine ih.2.2.1 n _ ?_
      rw [tagIdByName_congr (link_item_tag_tags _ _ _) n]
      exact get_or_create_tag_resolves db now n
    refine ⟨ih.1, ?_, ?_, ?_, ?_, ?_⟩
    · intro t ht
      refine ih.2.1 t ?_
      rw [link_item_tag_tags]
      exact get_or_create_tag_tags_mono db now n t ht
    · intro m i h
      refine ih.2.2.1 m i ?_
      rw [tagIdByName_congr (link_item_tag_tags _ _ _) m]
      exact get_or_create_tag_resolves_mono db now n m h
    · intro r hr
      refine ih.2.2.2.1 r ?_
      rw [link_item_tag_mem_iff]
      left
      rw [get_or_create_tag_item_tags]
      exact hr
    · intro r hr
      rcases ih.2.2.2.2.1 r hr with hrB | ⟨hid, n', hn', hres'⟩
      · rcases (link_item_tag_mem_iff _ _ _ r).mp hrB with hrA | hrP
        · rw [get_or_create_tag_item_tags] at hrA
          exact Or.inl hrA
        · refine Or.inr ⟨by rw [hrP], n, List.mem_cons_self n rest, ?_⟩
          rw [hrP]
          exact hres
      · exact Or.inr ⟨hid, n', List.mem_cons_of_mem n hn', hres'⟩
    · intro n' hn'
      rcases List.mem_cons.mp hn' with rfl | hn'
      · refine ⟨(db.get_or_create_tag now n').2.id, hres, ?_⟩
        refine ih.2.2.2.1 _ ?_
        exact link_item_tag_self_mem _ _ _
      · exact ih.2.2.2.2.2 n' hn'

/-- `get_or_create_person` touches neither `item_tags` nor `tags`. -/
theorem get_or_create_person_item_tags_tags (db : DB) (now : Nat) (n : String) :
    (db.get_or_create_person now n).1.item_tags = db.item_tags
    ∧ (db.get_or_create_person now n).1.tags = db.tags := by
  unfold DB.get_or_create_person
  split <;> exact ⟨rfl, rfl⟩

/-- `link_item_person` touches neither `item_tags` nor `tags`. -/
theorem link_item_person_item_tags_tags (db : DB) (i p : String) :
    (db.link_item_person i p).item_tags = db.item_tags
    ∧ (db.link_item_person i p).tags = db.tags := by
  by_cases h : (⟨i, p⟩ : ItemPerson) ∈ db.item_people
  · rw [link_item_person_of_mem h]
    exact ⟨rfl, rfl⟩
  · rw [link_item_person_of_not_mem h]
    exact ⟨rfl, rfl⟩

/-- The person-linking loop touches neither `item_tags` nor `tags`. -/
theorem linkPersonNames_item_tags_tags (now : Nat) (iid : String) :
    ∀ (l : List String) (db : DB),
      (linkPersonNames now iid db l).item_tags = db.item_tags
      ∧ (linkPersonNames now iid db l).tags = db.tags
  | [], _ => ⟨rfl, rfl⟩
  | n :: rest, db => by
    rw [linkPersonNames]
    have ih := linkPersonNames_item_tags_tags now iid rest
      ((db.get_or_create_person now n).1.link_item_person iid (db.get_or_create_person now n).2.id)
    rw [ih.1, ih.2]
    rw [(link_item_person_item_tags_tags _ _ _).1, (link_item_person_item_tags_tags _ _ _).2]
    rw [(get_or_create_person_item_tags_tags _ _ _).1, (get_or_create_person_item_tags_tags _ _ _).2]
    exact ⟨rfl, rfl⟩

/-- The jira-ref loop touches neither `item_tags` nor `tags`. -/
theorem addJiraKeys_item_tags_tags (now : Nat) (iid : String) :
    ∀ (l : List String) (db : DB),
      (addJiraKeys now iid db l).item_tags = db.item_tags
      ∧ (addJiraKeys now iid db l).tags = db.tags
  | [], _ => ⟨rfl, rfl⟩
  | k :: rest, db => by
    rw [addJiraKeys]
    have ih := addJiraKeys_item_tags_tags now iid rest (db.create_jira_ref now iid k).1
    rw [ih.1, ih.2]
    exact ⟨rfl, rfl⟩

/-- The content and project phases of `update_entry_item`, taken alone. -/
def contentProjectPhase (db : DB) (now : Nat) (iid : String)
    (u : UpdateEntryItemRequest) : DB :=
  match u.project with
  | some p => (match u.content with
               | some c => db.update_entry_item_content now iid c
               | none => db).update_entry_item_project now iid (some p)
  | none => match u.content with
            | some c => db.update_entry_item_content now iid c
            | none => db

/-- The content and project phases touch neither `item_tags` nor `tags`. -/
theorem contentProjectPhase_item_tags_tags (db : DB) (now : Nat) (iid : String)
    (u : UpdateEntryItemRequest) :
    (contentProjectPhase db now iid u).item_tags = db.item_tags
    ∧ (contentProjectPhase db now iid u).tags = db.tags := by
  unfold contentProjectPhase
  rcases u.project with _ | p <;> rcases u.content with _ | c <;> exact ⟨rfl, rfl⟩

/-- When the request carries a tag list, the final `item_tags` and `tags`
tables are those produced by the tag-replacement phase on the store left
by the content and project phases. -/
theorem updateStages_of_tags (db : DB) (now : Nat) (iid : String)
    (u : UpdateEntryItemRequest) (ts : List String) (hu : u.tags = some ts) :
    (updateStages db now iid u).item_tags
      = (linkTagNames now iid
          ((contentProjectPhase db now iid u).remove_item_tags iid) ts).item_tags
    ∧ (updateStages db now iid u).tags
      = (linkTagNames now iid
          ((contentProjectPhase db now iid u).remove_item_tags iid) ts).tags := by
  unfold updateStages contentProjectPhase
  rw [hu]
  rcases u.content with _ | c <;> rcases u.project with _ | p <;>
    rcases u.people with _ | ps <;> rcases u.jira with _ | js <;>
    dsimp only <;>
    constructor <;>
    simp only [(addJiraKeys_item_tags_tags now iid _ _).1,
      (addJiraKeys_item_tags_tags now iid _ _).2,
      (linkPersonNames_item_tags_tags now iid _ _).1,
      (linkPersonNames_item_tags_tags now iid _ _).2,
      DB.remove_item_people, DB.remove_item_jira_refs]

/-- **C3**: when `update_entry_item` is given a tags array, the join table
afterwards holds exactly one row per supplied tag name for that item —
the old tag set is fully replaced — and no `Tag` row is deleted by the
replacement: every pre-existing tag row persists. -/
theorem claim3_update_tags_replaces_set (db : DB) (now : Nat) (iid : String)
    (ts : List String) (u : UpdateEntryItemRequest) (hu : u.tags = some ts)
    (hnd : db.item_tags.Nodup) :
    (∀ t ∈ db.tags, t ∈ (update_entry_item_cmd db now iid u).1.tags)
    ∧ (∀ n ∈ ts, ∃ i, tagIdByName (update_entry_item_cmd db now iid u).1 n = some i
        ∧ (update_entry_item_cmd db now iid u).1.item_tags.count ⟨iid, i⟩ = 1)
    ∧ (∀ r ∈ (update_entry_item_cmd db now iid u).1.item_tags, r.entry_item_id = iid →
        ∃ n ∈ ts, tagIdByName (update_entry_item_cmd db now iid u).1 n = some r.tag_id) := by
  have hfst := update_entry_item_cmd_fst db now iid u
  have hph := updateStages_of_tags db now iid u ts hu
  have hd0it : ((contentProjectPhase db now iid u).remove_item_tags iid).item_tags
      = db.item_tags.filter (fun r => !(r.entry_item_id == iid)) := by
    show (contentProjectPhase db now iid u).item_tags.filter _ = _
    rw [(contentProjectPhase_item_tags_tags db now iid u).1]
  have hd0tg : ((contentProjectPhase db now iid u).remove_item_tags iid).tags = db.tags := by
    show (contentProjectPhase db now iid u).tags = db.tags
    exact (contentProjectPhase_item_tags_tags db now iid u).2
  have hndd0 : ((contentProjectPhase db now iid u).remove_item_tags iid).item_tags.Nodup := by
    rw [hd0it]
    exact hnd.filter _
  have spec := linkTagNames_spec now iid ts
    ((contentProjectPhase db now iid u).remove_item_tags iid) hndd0
  have hfit : (update_entry_item_cmd db now iid u).1.item_tags
      = (linkTagNames now iid
          ((contentProjectPhase db now iid u).remove_item_tags iid) ts).item_tags := by
    rw [hfst]
    exact hph.1
  have hftg : ∀ m, tagIdByName (update_entry_item_cmd db now iid u).1 m
      = tagIdByName (linkTagNames now iid
          ((contentProjectPhase db now iid u).remove_item_tags iid) ts) m := by
    intro m
    refine tagIdByName_congr ?_ m
    rw [hfst]
    exact hph.2
  refine ⟨?_, ?_, ?_⟩
  · intro t ht
    have h1 : t ∈ ((contentProjectPhase db now iid u).remove_item_tags iid).tags := by
      rw [hd0tg]
      exact ht
    have h2 := spec.2.1 t h1
    rw [hfst, hph.2]
    exact h2
  · intro n hn
    obtain ⟨i, hres, hmem⟩ := spec.2.2.2.2.2 n hn
    refine ⟨i, ?_, ?_⟩
    · rw [hftg n]
      exact hres
    · rw [hfit]
      exact List.count_eq_one_of_mem spec.1 hmem
  · intro r hr hrid
    rw [hfit] at hr
    rcases spec.2.2.2.2.1 r hr with hd0 | ⟨_, n, hn, hres⟩
    · rw [hd0it] at hd0
      have := List.of_mem_filter hd0
      rw [hrid] at this
      simp at this
    · refine ⟨n, hn, ?_⟩
      rw [hftg n]
      exact hres

/-- Witness for C3: an item tagged `{A, B}` updated to `{B, C}` keeps the
tag rows and holds exactly one join row per supplied name. -/
theorem claim3_update_tags_replaces_set_witness :
    ((⟨none, none, some ["B", "C"], none, none⟩ : UpdateEntryItemRequest).tags
        = some ["B", "C"]
      ∧ ({ entries := [⟨"e1", 5, 0, 0⟩],
           entry_items := [⟨"i1", "e1", "Note", "c", none, 0, 0⟩],
           tags := [⟨"tA", "A", none, "#6c757d", none, 0, 0⟩,
                    ⟨"tB", "B", none, "#6c757d", none, 0, 0⟩],
           people := [], jira_refs := [],
           item_tags := [⟨"i1", "tA"⟩, ⟨"i1", "tB"⟩], item_people := [],
           meeting_actions := [], nextId := 0 } : DB).item_tags.Nodup)
    ∧ ∀ n ∈ ["B", "C"], ∃ i,
        tagIdByName (update_entry_item_cmd
          { entries := [⟨"e1", 5, 0, 0⟩],
            entry_items := [⟨"i1", "e1", "Note", "c", none, 0, 0⟩],
            tags := [⟨"tA", "A", none, "#6c757d", none, 0, 0⟩,
                     ⟨"tB", "B", none, "#6c757d", none, 0, 0⟩],
            people := [], jira_refs := [],
            item_tags := [⟨"i1", "tA"⟩, ⟨"i1", "tB"⟩], item_people := [],
            meeting_actions := [], nextId := 0 } 7 "i1"
          ⟨none, none, some ["B", "C"], none, none⟩).1 n = some i
        ∧ (update_entry_item_cmd
            { entries := [⟨"e1", 5, 0, 0⟩],
              entry_items := [⟨"i1", "e1", "Note", "c", none, 0, 0⟩],
              tags := [⟨"tA", "A", none, "#6c757d", none, 0, 0⟩,
                       ⟨"tB", "B", none, "#6c757d", none, 0, 0⟩],
              people := [], jira_refs := [],
              item_tags := [⟨"i1", "tA"⟩, ⟨"i1", "tB"⟩], item_people := [],
              meeting_actions := [], nextId := 0 } 7 "i1"
            ⟨none, none, some ["B", "C"], none, none⟩).1.item_tags.count ⟨"i1", i⟩ = 1 :=
  ⟨⟨rfl, by decide⟩,
   (claim3_update_tags_replaces_set
     { entries := [⟨"e1", 5, 0, 0⟩],
       entry_items := [⟨"i1", "e1", "Note", "c", none, 0, 0⟩],
       tags := [⟨"tA", "A", none, "#6c757d", none, 0, 0⟩,
                ⟨"tB", "B", none, "#6c757d", none, 0, 0⟩],
       people := [], jira_refs := [],
       item_tags := [⟨"i1", "tA"⟩, ⟨"i1", "tB"⟩], item_people := [],
       meeting_actions := [], nextId := 0 } 7 "i1" ["B", "C"]
     ⟨none, none, some ["B", "C"], none, none⟩ rfl (by decide)).2.1⟩

/-- Modelled from the spec: the quoted-field scanner of a compliant CSV
reader — after the opening quote, a doubled quote is a literal quote
character and a single quote closes the field; returns the field value
and the input following the closing quote. -/
def scanQuoted : List Char → Option (List Char × List Char)
  | [] => none
  | c :: rest =>
    if c = '"' then
      if rest.head? = some '"' then
        (scanQuoted rest.tail).map (fun r => ('"' :: r.1, r.2))
      else some ([], rest)
    else (scanQuoted rest).map (fun r => (c :: r.1, r.2))
termination_by cs => cs.length
decreasing_by
  all_goals simp [List.length_tail]
  omega

/-- Modelled from the spec: the unquoted-field scanner of a compliant CSV
reader — the field runs to the next comma, newline or end of input,
which is left in place. -/
def scanRaw : List Char → List Char × List Char
  | [] => ([], [])
  | c :: rest =>
    if c = ',' ∨ c = '\n' then ([], c :: rest)
    else ((scanRaw rest).1.cons c, (scanRaw rest).2)

/-- Modelled from the spec: one field of a compliant CSV reader — quoted
when it opens with a quote, raw otherwise. -/
def scanField (cs : List Char) : Option (List Char × List Char) :=
  match cs with
  | [] => some ([], [])
  | c :: rest => if c = '"' then scanQuoted rest else some (scanRaw cs)

/-- Modelled from the spec: one LF-terminated record of a compliant CSV
reader — comma-separated fields; fails on garbage after a quoted field
or when the fuel runs out. -/
def scanRecord : Nat → List Char → Option (List (List Char) × List Char)
  | 0, _ => none
  | fuel + 1, cs =>
    (scanField cs).bind (fun fr =>
      if fr.2.head? = some ',' then
        (scanRecord fuel fr.2.tail).map (fun r => (fr.1 :: r.1, r.2))
      else if fr.2.head? = some '\n' then some ([fr.1], fr.2.tail)
      else if fr.2 = [] then some ([fr.1], [])
      else none)

/-- Modelled from the spec: the record sequence a compliant CSV reader
extracts from the remaining input. -/
def parseRecords : Nat → List Char → Option (List (List String))
  | _, [] => some []
  | 0, _ :: _ => none
  | fuel + 1, c :: cs =>
    (scanRecord ((c :: cs).length + 1) (c :: cs)).bind (fun r =>
      (parseRecords fuel r.2).map (fun rs => r.1.map (fun f => String.mk f) :: rs))

/-- Modelled from the spec: a compliant CSV reader for LF-terminated
records, producing each record's list of field strings. -/
def csvParse (s : String) : Option (List (List String)) :=
  parseRecords (s.data.length + 1) s.data

/-- One CSV field as the exporter writes it: raw text, or a quoted field
whose value is written with doubled quotes. -/
inductive FieldDesc : Type
  | raw (s : List Char)
  | quoted (s : List Char)
deriving DecidableEq, Repr

/-- The characters a field description puts on the wire. -/
def fieldChars : FieldDesc → List Char
  | .raw s => s
  | .quoted s => '"' :: (escQuotes s ++ ['"'])

/-- The value a field description denotes. -/
def fieldVal : FieldDesc → List Char
  | .raw s => s
  | .quoted s => s

/-- A field description a compliant reader can re-read: raw fields hold
no comma, quote or newline; quoted fields are unrestricted. -/
def FOk : FieldDesc → Prop
  | .raw s => ∀ c ∈ s, c ≠ ',' ∧ c ≠ '"' ∧ c ≠ '\n'
  | .quoted _ => True

/-- The characters of an LF-terminated record of the given fields. -/
def recordChars : List FieldDesc → List Char
  | [] => ['\n']
  | [f] => fieldChars f ++ ['\n']
  | f :: fs => fieldChars f ++ ',' :: recordChars fs

/-- Escaping is the identity on quote-free text. -/
theorem escQuotes_of_noQuote : ∀ (s : List Char), (∀ c ∈ s, c ≠ '"') → escQuotes s = s
  | [], _ => rfl
  | c :: rest, h => by
    rw [escQuotes]
    rw [if_neg (h c (List.mem_cons_self c rest))]
    rw [escQuotes_of_noQuote rest (fun c hc => h c (List.mem_cons_of_mem _ hc))]

/-- The quoted-field scanner undoes quote doubling: it recovers the
original value and stops at the closing quote, whenever the following
character is not a quote. -/
theorem scanQuoted_esc : ∀ (s rest : List Char), rest.head? ≠ some '"' →
    scanQuoted (escQuotes s ++ '"' :: rest) = some (s, rest)
  | [], rest, h => by
    rw [escQuotes, List.nil_append, scanQuoted]
    rw [if_pos rfl]
    rw [if_neg (by simpa using h)]
  | c :: s', rest, h => by
    rw [escQuotes]
    by_cases hc : c = '"'
    · subst hc
      rw [if_pos rfl]
      rw [List.cons_append, List.cons_append, scanQuoted]
      rw [if_pos rfl]
      rw [if_pos (by rfl)]
      rw [List.tail_cons]
      rw [scanQuoted_esc s' rest h]
      rfl
    · rw [if_neg hc, List.cons_append, scanQuoted]
      rw [if_neg hc]
      rw [scanQuoted_esc s' rest h]
      rfl

/-- The raw-field scanner consumes exactly the special-character-free
field text and stops at the delimiter. -/
theorem scanRaw_append : ∀ (s rest : List Char),
    (∀ c ∈ s, c ≠ ',' ∧ c ≠ '"' ∧ c ≠ '\n') →
    (rest.head? = none ∨ rest.head? = some ',' ∨ rest.head? = some '\n') →
    scanRaw (s ++ rest) = (s, rest)
  | [], rest, _, hr => by
    rw [List.nil_append]
    rcases rest with _ | ⟨c, rest2⟩
    · rfl
    · rw [scanRaw]
      rcases hr with h | h | h
      · cases h
      · injection h with h
        rw [if_pos (Or.inl h)]
      · injection h with h
        rw [if_pos (Or.inr h)]
  | c :: s', rest, hs, hr => by
    rw [List.cons_append]
    rw [scanRaw]
    have hc := hs c (List.mem_cons_self c s')
    rw [if_neg (by rintro (h | h); exacts [hc.1 h, hc.2.2 h])]
    rw [scanRaw_append s' rest (fun x hx => hs x (List.mem_cons_of_mem _ hx)) hr]

/-- The field scanner reads back any well-formed field written by the
exporter, leaving the delimiter in place. -/
theorem scanField_append (f : FieldDesc) (rest : List Char) (hf : FOk f)
    (hr : rest.head? = none ∨ rest.head? = some ',' ∨ rest.head? = some '\n') :
    scanField (fieldChars f ++ rest) = some (fieldVal f, rest) := by
  have hrq : rest.head? ≠ some '"' := by
    rcases hr with h | h | h <;> rw [h] <;> decide
  rcases f with s | s
  · rcases s with _ | ⟨c, s'⟩
    · rw [fieldChars, fieldVal, List.nil_append]
      rcases rest with _ | ⟨c, rest2⟩
      · rfl
      · rw [scanField]
        have hc : c ≠ '"' := fun hh => hrq (by rw [hh]; rfl)
        rw [if_neg hc]
        have hsr : scanRaw (c :: rest2) = ([], c :: rest2) := by
          rw [scanRaw]
          rcases hr with h | h | h
          · cases h
          · injection h with h
            rw [if_pos (Or.inl h)]
          · injection h with h
            rw [if_pos (Or.inr h)]
        rw [hsr]
    · rw [fieldChars, fieldVal, List.cons_append, scanField]
      have hc := hf c (List.mem_cons_self c s')
      rw [if_neg hc.2.1]
      rw [← List.cons_append]
      rw [scanRaw_append (c :: s') rest hf hr]
  · rw [fieldChars, fieldVal, List.cons_append, scanField]
    rw [if_pos rfl]
    rw [List.append_assoc, List.singleton_append]
    exact scanQuoted_esc s rest hrq

/-- A record always carries at least its terminating newline. -/
theorem recordChars_ne_nil : ∀ fs : List FieldDesc, recordChars fs ≠ []
  | [] => by
    rw [recordChars]
    simp
  | [f] => by
    rw [recordChars]
    simp
  | _ :: _ :: _ => by
    rw [recordChars]
    all_goals simp

/-- A record is at least as long as its field count. -/
theorem length_le_recordChars : ∀ fs : List FieldDesc, fs.length ≤ (recordChars fs).length
  | [] => by simp [recordChars]
  | [f] => by simp [recordChars]
  | f :: f2 :: fs => by
    have ih := length_le_recordChars (f2 :: fs)
    rw [recordChars]
    · simp only [List.length_append, List.length_cons] at ih ⊢
      omega
    · simp

/-- The record scanner reads back a well-formed record written by the
exporter: all its field values, with the rest of the input untouched. -/
theorem scanRecord_recordChars : ∀ (fs : List FieldDesc) (fuel : Nat) (rest : List Char),
    (∀ f ∈ fs, FOk f) → fs ≠ [] → fs.length < fuel →
    scanRecord fuel (recordChars fs ++ rest) = some (fs.map fieldVal, rest)
  | [], _, _, _, hne, _ => absurd rfl hne
  | [f], fuel, rest, hok, _, hfuel => by
    obtain ⟨k, rfl⟩ : ∃ k, fuel = k + 1 := ⟨fuel - 1, by omega⟩
    rw [recordChars]
    rw [List.append_assoc, List.singleton_append]
    rw [scanRecord]
    rw [scanField_append f ('\n' :: rest) (hok f (List.mem_cons_self f []))
      (Or.inr (Or.inr rfl))]
    rw [Option.some_bind]
    dsimp only
    have h1 : ¬ (('\n' :: rest).head? = some ',') := by simp
    have h2 : ('\n' :: rest).head? = some '\n' := rfl
    rw [if_neg h1, if_pos h2]
    rw [List.tail_cons]
    rfl
  | f :: f2 :: fs, fuel, rest, hok, _, hfuel => by
    obtain ⟨k, rfl⟩ : ∃ k, fuel = k + 1 := ⟨fuel - 1, by omega⟩
    rw [recordChars]
    · rw [List.append_assoc, List.cons_append]
      rw [scanRecord]
      rw [scanField_append f (',' :: (recordChars (f2 :: fs) ++ rest))
        (hok f (List.mem_cons_self _ _)) (Or.inr (Or.inl rfl))]
      rw [Option.some_bind]
      dsimp only
      have hcm : ((',' : Char) :: (recordChars (f2 :: fs) ++ rest)).head? = some ',' := rfl
      rw [if_pos hcm]
      rw [List.tail_cons]
      rw [scanRecord_recordChars (f2 :: fs) k rest
        (fun x hx => hok x (List.mem_cons_of_mem _ hx)) (by simp)
        (by simp only [List.length_cons] at hfuel ⊢; omega)]
      rfl
    · simp

/-- A record stream is at least as long as its record count. -/
theorem length_le_flatten_recordChars : ∀ rss : List (List FieldDesc),
    rss.length ≤ ((rss.map recordChars).flatten).length
  | [] => by simp
  | fs :: rss => by
    rw [List.map_cons, List.flatten_cons]
    have ih := length_le_flatten_recordChars rss
    have h1 : 1 ≤ (recordChars fs).length := by
      rcases h : recordChars fs with _ | ⟨c, l⟩
      · exact absurd h (recordChars_ne_nil fs)
      · simp
    simp only [List.length_cons, List.length_append]
    omega

/-- The reader recovers every record of a well-formed record stream. -/
theorem parseRecords_recordChars : ∀ (rss : List (List FieldDesc)) (fuel : Nat),
    (∀ fs ∈ rss, fs ≠ [] ∧ ∀ f ∈ fs, FOk f) → rss.length < fuel →
    parseRecords fuel ((rss.map recordChars).flatten)
      = some (rss.map (fun fs => fs.map (fun f => String.mk (fieldVal f))))
  | [], fuel, _, _ => by
    simp only [List.map_nil, List.flatten_nil]
    rcases fuel with _ | k <;> rfl
  | fs :: rss, fuel, hok, hfuel => by
    obtain ⟨k, rfl⟩ : ∃ k, fuel = k + 1 := ⟨fuel - 1, by omega⟩
    rw [List.map_cons, List.flatten_cons]
    rcases hrc : recordChars fs with _ | ⟨c, rcs⟩
    · exact absurd hrc (recordChars_ne_nil fs)
    · rw [List.cons_append]
      rw [parseRecords]
      rw [← List.cons_append, ← hrc]
      rw [scanRecord_recordChars fs _ _ (hok fs (List.mem_cons_self _ _)).2
        (hok fs (List.mem_cons_self _ _)).1
        (by
          have h1 := length_le_recordChars fs
          simp only [List.length_append] at h1 ⊢
          omega)]
      rw [Option.some_bind]
      dsimp only
      rw [parseRecords_recordChars rss k (fun x hx => hok x (List.mem_cons_of_mem _ hx))
        (by simp only [List.length_cons] at hfuel ⊢; omega)]
      simp [List.map_map, Function.comp]

/-- Appending rows with `foldl` concatenates their characters after the
accumulator. -/
theorem foldl_concat_data {α : Type} (g : α → String) :
    ∀ (l : List α) (acc : String),
      (l.foldl (fun a x => a ++ g x) acc).data
        = acc.data ++ (l.map (fun x => (g x).data)).flatten
  | [], acc => by simp
  | x :: rest, acc => by
    rw [List.foldl_cons, foldl_concat_data g rest (acc ++ g x)]
    rw [String.data_append]
    simp [List.append_assoc]

/-- The exporter's nested fold over entries and items concatenates every
row after the accumulator. -/
theorem export_foldl_data : ∀ (l : List EntryWithItems) (acc : String),
    (l.foldl (fun acc ew =>
        let date := fmtDate ew.entry.timestamp
        let time := fmtTime ew.entry.timestamp
        ew.items.foldl (fun acc2 m => acc2 ++ csvItemRow date time m) acc) acc).data
      = acc.data ++ (l.map (fun ew =>
          (ew.items.map (fun m => (csvItemRow (fmtDate ew.entry.timestamp)
            (fmtTime ew.entry.timestamp) m).data)).flatten)).flatten
  | [], acc => by simp
  | ew :: rest, acc => by
    rw [List.foldl_cons]
    rw [export_foldl_data rest _]
    dsimp only
    rw [foldl_concat_data
      (csvItemRow (fmtDate ew.entry.timestamp) (fmtTime ew.entry.timestamp)) ew.items acc]
    simp [List.append_assoc]

/-- The exported text is the header followed by the characters of every
item row, entries outermost. -/
theorem export_entries_csv_data (db : DB) :
    (export_entries_csv db).data
      = csvHeader.data ++ (db.get_all_entries_with_items.map (fun ew =>
          (ew.items.map (fun m => (csvItemRow (fmtDate ew.entry.timestamp)
            (fmtTime ew.entry.timestamp) m).data)).flatten)).flatten := by
  unfold export_entries_csv
  exact export_foldl_data db.get_all_entries_with_items csvHeader

/-- A string free of comma, double quote and newline. -/
@[reducible] def rawOk (s : String) : Prop :=
  ∀ c ∈ s.data, c ≠ ',' ∧ c ≠ '"' ∧ c ≠ '\n'

/-- A string free of double quotes. -/
@[reducible] def noQuote (s : String) : Prop :=
  ∀ c ∈ s.data, c ≠ '"'

/-- The field descriptions of one exported data row: date, time and type
raw; content, project and the three joined lists quoted. -/
def itemFieldDescs (date time : String) (m : EntryItemWithMetadata) : List FieldDesc :=
  [.raw date.data, .raw time.data, .raw m.item.item_type.data,
   .quoted m.item.content.data,
   .quoted (m.item.project.getD "").data,
   .quoted (String.intercalate ";" (m.tags.map (·.name))).data,
   .quoted (String.intercalate ";" (m.jira_refs.map (·.jira_key))).data,
   .quoted (String.intercalate ";" (m.people.map (·.name))).data]

/-- The escaping in `csvEscape` is exactly `escQuotes` on the character
list. -/
theorem csvEscape_data (s : String) : (csvEscape s).data = escQuotes s.data :=
  rfl

/-- A data row's characters are the record the exporter's field
descriptions denote, as soon as the four unescaped quoted fields hold no
quote character. -/
theorem csvItemRow_data (date time : String) (m : EntryItemWithMetadata)
    (hp : noQuote (m.item.project.getD ""))
    (htg : noQuote (String.intercalate ";" (m.tags.map (·.name))))
    (hj : noQuote (String.intercalate ";" (m.jira_refs.map (·.jira_key))))
    (hpe : noQuote (String.intercalate ";" (m.people.map (·.name)))) :
    (csvItemRow date time m).data = recordChars (itemFieldDescs date time m) := by
  have hc1 : ("," : String).data = [','] := rfl
  have hc2 : (",\"" : String).data = [',', '"'] := rfl
  have hc3 : ("\",\"" : String).data = ['"', ',', '"'] := rfl
  have hc4 : ("\"\n" : String).data = ['"', '\n'] := rfl
  unfold csvItemRow itemFieldDescs
  simp only [recordChars, fieldChars, String.data_append, csvEscape_data,
    escQuotes_of_noQuote _ hp, escQuotes_of_noQuote _ htg, escQuotes_of_noQuote _ hj,
    escQuotes_of_noQuote _ hpe, hc1, hc2, hc3, hc4,
    List.append_assoc, List.cons_append, List.singleton_append, List.nil_append]

/-- The header line is the record of eight raw fields. -/
theorem csvHeader_data :
    csvHeader.data = recordChars
      [.raw "Date".data, .raw "Time".data, .raw "Type".data, .raw "Content".data,
       .raw "Project".data, .raw "Tags".data, .raw "Jira".data, .raw "People".data] :=
  rfl

/-- The date column of an aggregated entry's rows. -/
def entryDate (ew : EntryWithItems) : String :=
  fmtDate ew.entry.timestamp

/-- The time column of an aggregated entry's rows. -/
def entryTime (ew : EntryWithItems) : String :=
  fmtTime ew.entry.timestamp

/-- Folding the date formatter into the per-entry abbreviation. -/
theorem entryDate_eq (ew : EntryWithItems) : fmtDate ew.entry.timestamp = entryDate ew :=
  rfl

/-- Folding the time formatter into the per-entry abbreviation. -/
theorem entryTime_eq (ew : EntryWithItems) : fmtTime ew.entry.timestamp = entryTime ew :=
  rfl

/-- Concatenating per-row blocks equals concatenating the records of the
flattened per-item field descriptions. -/
theorem flatten_rows_congr {α β : Type} (rows : α → β → List Char)
    (descs : α → β → List FieldDesc) (items : α → List β) :
    ∀ (l : List α), (∀ a ∈ l, ∀ b ∈ items a, rows a b = recordChars (descs a b)) →
      (l.map (fun a => ((items a).map (rows a)).flatten)).flatten
        = ((l.flatMap (fun a => (items a).map (descs a))).map recordChars).flatten
  | [], _ => rfl
  | a :: rest, h => by
    rw [List.map_cons, List.flatten_cons, List.flatMap_cons, List.map_append,
      List.flatten_append]
    rw [flatten_rows_congr rows descs items rest
      (fun x hx b hb => h x (List.mem_cons_of_mem _ hx) b hb)]
    rw [List.map_map]
    have hinner : (items a).map (rows a) = (items a).map (recordChars ∘ descs a) :=
      List.map_congr_left (fun b hb => h a (List.mem_cons_self _ _) b hb)
    rw [hinner]

/-- Rebuilding strings from a data row's field descriptions yields the
row's eight field values. -/
theorem itemFieldDescs_vals (d t : String) (m : EntryItemWithMetadata) :
    (itemFieldDescs d t m).map (fun f => String.mk (fieldVal f))
      = [d, t, m.item.item_type, m.item.content, m.item.project.getD "",
         String.intercalate ";" (m.tags.map (·.name)),
         String.intercalate ";" (m.jira_refs.map (·.jira_key)),
         String.intercalate ";" (m.people.map (·.name))] := by
  have hmk : ∀ s : String, String.mk s.data = s := fun s => rfl
  simp [itemFieldDescs, fieldVal, hmk]

/-- **C8**: on every store whose formatted dates, times and item types are
free of CSV metacharacters and whose project and `;`-joined tag, jira
and people fields hold no double quote, the CSV export parses back under
a compliant reader as the header record
`Date,Time,Type,Content,Project,Tags,Jira,People` followed by exactly
one record per item — entries outermost, items in order — whose Content
field reconstructs the original content string exactly (embedded quotes
doubled on the wire), whose Project field is the empty string when the
project is absent, and whose Tags, Jira and People fields are the
`;`-joined lists. -/
theorem claim8_export_csv_roundtrip (db : DB)
    (hok : ∀ ew ∈ db.get_all_entries_with_items,
        rawOk (entryDate ew) ∧ rawOk (entryTime ew)
        ∧ ∀ m ∈ ew.items, rawOk m.item.item_type
            ∧ noQuote (m.item.project.getD "")
            ∧ noQuote (String.intercalate ";" (m.tags.map (·.name)))
            ∧ noQuote (String.intercalate ";" (m.jira_refs.map (·.jira_key)))
            ∧ noQuote (String.intercalate ";" (m.people.map (·.name)))) :
    csvParse (export_entries_csv db)
      = some (["Date", "Time", "Type", "Content", "Project", "Tags", "Jira", "People"]
          :: db.get_all_entries_with_items.flatMap (fun ew => ew.items.map (fun m =>
              [entryDate ew, entryTime ew, m.item.item_type,
               m.item.content, m.item.project.getD "",
               String.intercalate ";" (m.tags.map (·.name)),
               String.intercalate ";" (m.jira_refs.map (·.jira_key)),
               String.intercalate ";" (m.people.map (·.name))]))) := by
  have hraw : ∀ (s : List Char), (∀ c ∈ s, c ≠ ',' ∧ c ≠ '"' ∧ c ≠ '\n') →
      FOk (.raw s) := fun _ h => h
  have hq : ∀ s : List Char, FOk (.quoted s) := fun _ => trivial
  have hrows := flatten_rows_congr
    (fun ew m => (csvItemRow (entryDate ew) (entryTime ew) m).data)
    (fun ew m => itemFieldDescs (entryDate ew) (entryTime ew) m)
    EntryWithItems.items db.get_all_entries_with_items
    (fun ew hew m hm => csvItemRow_data (entryDate ew) (entryTime ew) m
      ((hok ew hew).2.2 m hm).2.1 ((hok ew hew).2.2 m hm).2.2.1
      ((hok ew hew).2.2 m hm).2.2.2.1 ((hok ew hew).2.2 m hm).2.2.2.2)
  have hdata : (export_entries_csv db).data
      = (((
          [FieldDesc.raw "Date".data, .raw "Time".data, .raw "Type".data, .raw "Content".data,
           .raw "Project".data, .raw "Tags".data, .raw "Jira".data, .raw "People".data]
          : List FieldDesc)
          :: db.get_all_entries_with_items.flatMap (fun ew => ew.items.map
              (fun m => itemFieldDescs (entryDate ew)
                (entryTime ew) m))).map recordChars).flatten := by
    rw [export_entries_csv_data]
    simp only [entryDate_eq, entryTime_eq]
    rw [List.map_cons, List.flatten_cons, ← csvHeader_data]
    congr 1
  have hfsok : ∀ fs ∈ (((
        [FieldDesc.raw "Date".data, .raw "Time".data, .raw "Type".data, .raw "Content".data,
         .raw "Project".data, .raw "Tags".data, .raw "Jira".data, .raw "People".data]
        : List FieldDesc)
        :: db.get_all_entries_with_items.flatMap (fun ew => ew.items.map
            (fun m => itemFieldDescs (entryDate ew) (entryTime ew) m)))),
      fs ≠ [] ∧ ∀ f ∈ fs, FOk f := by
    intro fs hfs
    rcases List.mem_cons.mp hfs with rfl | hfs2
    · refine ⟨by simp, ?_⟩
      intro f hf
      fin_cases hf <;> exact hraw _ (by decide)
    · obtain ⟨ew, hew, hm2⟩ := List.mem_flatMap.mp hfs2
      obtain ⟨m, hm, rfl⟩ := List.mem_map.mp hm2
      refine ⟨by simp [itemFieldDescs], ?_⟩
      intro f hf
      simp only [itemFieldDescs, List.mem_cons, List.not_mem_nil, or_false] at hf
      rcases hf with rfl | rfl | rfl | rfl | rfl | rfl | rfl | rfl
      · exact hraw _ (hok ew hew).1
      · exact hraw _ (hok ew hew).2.1
      · exact hraw _ ((hok ew hew).2.2 m hm).1
      · exact hq _
      · exact hq _
      · exact hq _
      · exact hq _
      · exact hq _
  unfold csvParse
  rw [hdata]
  rw [parseRecords_recordChars _ _ hfsok (by
    have h1 := length_le_flatten_recordChars (((
        [FieldDesc.raw "Date".data, .raw "Time".data, .raw "Type".data, .raw "Content".data,
         .raw "Project".data, .raw "Tags".data, .raw "Jira".data, .raw "People".data]
        : List FieldDesc)
        :: db.get_all_entries_with_items.flatMap (fun ew => ew.items.map
            (fun m => itemFieldDescs (entryDate ew) (entryTime ew) m))))
    omega)]
  rw [List.map_cons]
  have hhdr : ((
      [FieldDesc.raw "Date".data, .raw "Time".data, .raw "Type".data, .raw "Content".data,
       .raw "Project".data, .raw "Tags".data, .raw "Jira".data, .raw "People".data]
      : List FieldDesc).map (fun f => String.mk (fieldVal f)))
      = ["Date", "Time", "Type", "Content", "Project", "Tags", "Jira", "People"] := rfl
  rw [hhdr]
  have hdataRecs : ((db.get_all_entries_with_items.flatMap (fun ew => ew.items.map
        (fun m => itemFieldDescs (entryDate ew) (entryTime ew) m))).map
        (fun fs => fs.map (fun f => String.mk (fieldVal f))))
      = db.get_all_entries_with_items.flatMap (fun ew => ew.items.map (fun m =>
          [entryDate ew, entryTime ew, m.item.item_type,
           m.item.content, m.item.project.getD "",
           String.intercalate ";" (m.tags.map (·.name)),
           String.intercalate ";" (m.jira_refs.map (·.jira_key)),
           String.intercalate ";" (m.people.map (·.name))])) := by
    rw [List.map_flatMap]
    congr 1
    funext ew
    rw [List.map_map]
    refine List.map_congr_left ?_
    intro m _
    exact itemFieldDescs_vals _ _ m
  rw [hdataRecs]

/-- Concrete store for the C8 witness: one entry, one item whose content
holds an embedded quote, a comma and a newline, with a tag, a person and
a jira ref attached and no project. -/
def csvWitnessDB : DB :=
  { entries := [⟨"e1", 1704099600, 0, 0⟩],
    entry_items := [⟨"i1", "e1", "Note", "say \"hi\", ok\nnext", none, 0, 0⟩],
    tags := [⟨"t1", "team-a", none, "#6c757d", none, 0, 0⟩],
    people := [⟨"p1", "alice", 0⟩],
    jira_refs := [⟨"j1", "i1", "SCO-1", 0⟩],
    item_tags := [⟨"i1", "t1"⟩],
    item_people := [⟨"i1", "p1"⟩],
    meeting_actions := [], nextId := 9 }

/-- The aggregation of the witness store, computed. -/
theorem csvWitnessDB_agg : csvWitnessDB.get_all_entries_with_items =
    [{ entry := ⟨"e1", 1704099600, 0, 0⟩,
       items := [{ item := ⟨"i1", "e1", "Note", "say \"hi\", ok\nnext", none, 0, 0⟩,
                   tags := [⟨"t1", "team-a", none, "#6c757d", none, 0, 0⟩],
                   people := [⟨"p1", "alice", 0⟩],
                   jira_refs := [⟨"j1", "i1", "SCO-1", 0⟩] }] }] := by
  simp [csvWitnessDB, DB.get_all_entries_with_items, DB.get_entry_items_with_metadata,
    DB.get_item_tags, DB.get_item_people, DB.get_item_jira_refs, List.mergeSort]

/-- Witness for C8: on the concrete store the side conditions hold by
computation, and the export parses back to the header plus the one item
row with the content string reconstructed exactly. -/
theorem claim8_export_csv_roundtrip_witness :
    (∀ ew ∈ csvWitnessDB.get_all_entries_with_items,
        rawOk (entryDate ew) ∧ rawOk (entryTime ew)
        ∧ ∀ m ∈ ew.items, rawOk m.item.item_type
            ∧ noQuote (m.item.project.getD "")
            ∧ noQuote (String.intercalate ";" (m.tags.map (·.name)))
            ∧ noQuote (String.intercalate ";" (m.jira_refs.map (·.jira_key)))
            ∧ noQuote (String.intercalate ";" (m.people.map (·.name))))
    ∧ csvParse (export_entries_csv csvWitnessDB)
      = some (["Date", "Time", "Type", "Content", "Project", "Tags", "Jira", "People"]
          :: csvWitnessDB.get_all_entries_with_items.flatMap (fun ew => ew.items.map (fun m =>
              [entryDate ew, entryTime ew, m.item.item_type,
               m.item.content, m.item.project.getD "",
               String.intercalate ";" (m.tags.map (·.name)),
               String.intercalate ";" (m.jira_refs.map (·.jira_key)),
               String.intercalate ";" (m.people.map (·.name))]))) :=
  have hok : ∀ ew ∈ csvWitnessDB.get_all_entries_with_items,
      rawOk (entryDate ew) ∧ rawOk (entryTime ew)
      ∧ ∀ m ∈ ew.items, rawOk m.item.item_type
          ∧ noQuote (m.item.project.getD "")
          ∧ noQuote (String.intercalate ";" (m.tags.map (·.name)))
          ∧ noQuote (String.intercalate ";" (m.jira_refs.map (·.jira_key)))
          ∧ noQuote (String.intercalate ";" (m.people.map (·.name))) := by
    intro ew hew
    rw [csvWitnessDB_agg] at hew
    simp only [List.mem_singleton] at hew
    subst hew
    refine ⟨by decide, by decide, ?_⟩
    intro m hm
    simp only [List.mem_singleton] at hm
    subst hm
    exact ⟨by decide, by decide, by decide, by decide, by decide⟩
  ⟨hok, claim8_export_csv_roundtrip csvWitnessDB hok⟩
